import Mathlib

/-!
Verification of the Kontomanager scraping client
(`src/mcp_server_kontomanager/client.py` and `models.py`).

The embedding is shallow: Python strings are `List Char`, Python floats are
exact rationals `ℚ` (plus an explicit positive-infinity marker `PyReal.inf`
where the source uses `float('inf')`), Python `None`-able values are
`Option`, raised exceptions are `Except.error`.  HTML selector queries are
abstracted as record fields holding the text each query would return; the
parsing and payload-building logic consuming those query results is
translated statement by statement from the source.  Regular-expression
searches from the source are rendered as explicit leftmost-match scanners
over `List Char` (ASCII reading of the `\s`, `\w`, `\d` classes).
-/

namespace KM

/-! ## Character classes and basic text helpers -/

/-- Python's regex class `\s` (ASCII range). -/
def isSpaceChar (c : Char) : Bool :=
  c = ' ' || c = '\t' || c = '\n' || c = '\r' || c = '\x0b' || c = '\x0c'

/-- Python's regex class `\w` (ASCII range). -/
def isWordChar (c : Char) : Bool :=
  c.isAlphanum || c = '_'

/-- The character class `[\d\.,]` used by the usage-bar and EU-data regexes. -/
def isClassChar (c : Char) : Bool :=
  c.isDigit || c = '.' || c = ','

/-- `str.lower` on one character (ASCII letters; the only letters the client
compares case-insensitively are ASCII). -/
def lowerChar (c : Char) : Char :=
  if 65 ≤ c.toNat ∧ c.toNat ≤ 90 then Char.ofNat (c.toNat + 32) else c

/-- `str.upper` on one character (ASCII letters). -/
def upperChar (c : Char) : Char :=
  if 97 ≤ c.toNat ∧ c.toNat ≤ 122 then Char.ofNat (c.toNat - 32) else c

/-- Python's `str.strip()` (whitespace from both ends). -/
def trim (s : List Char) : List Char :=
  ((s.dropWhile isSpaceChar).reverse.dropWhile isSpaceChar).reverse

/-- Decimal digits to a natural number (`int(...)` on an all-digit string). -/
def digitsToNat (ds : List Char) : Nat :=
  ds.foldl (fun a c => 10 * a + (c.toNat - 48)) 0

/-- Python's `str.split(sep)` for a one-character separator. -/
def pySplit (sep : Char) : List Char → List (List Char)
  | [] => [[]]
  | c :: t =>
    let r := pySplit sep t
    if c = sep then [] :: r
    else
      match r with
      | h :: t2 => (c :: h) :: t2
      | [] => [[c]]

/-! ## `KontomanagerClient._normalize_phone_number` (client.py lines 82-93)

```
if not number_str: return ""
digits = re.sub(r'[^\d]', '', number_str)
if not digits: return ""
if digits.startswith('43'): return f"+{digits}"
if digits.startswith('0'): return f"+43{digits[1:]}"
return f"+43{digits}"
```

`startswith` on the one/two-character literals is rendered as equality of
`take 1`/`take 2`, and `digits[1:]` as `tail`. -/

def normalizePhone (s : List Char) : List Char :=
  if s = [] then []
  else
    let digits := s.filter Char.isDigit
    if digits = [] then []
    else if digits.take 2 = ['4', '3'] then '+' :: digits
    else if digits.take 1 = ['0'] then '+' :: '4' :: '3' :: digits.tail
    else '+' :: '4' :: '3' :: digits

/-! ## `KontomanagerClient._parse_number` (client.py lines 95-101)

```
if not text: return default
cleaned_text = text.replace('€', '').replace('.', '').replace(',', '.').strip()
match = re.search(r'[-+]?\d*\.?\d+', cleaned_text)
return float(match.group(0)) if match else default
```

The regex `[-+]?\d*\.?\d+` is searched leftmost-first; at a fixed start
position the only backtracking that can occur is: a greedy `\d*` that
swallowed every digit gives one back so that the mandatory `\d+` can match,
and a `\.?` that matched a dot not followed by a digit is dropped.
`matchCore` implements exactly that resolution: maximal digit run, then an
optional dot followed by a mandatory digit run. -/

def matchCore (cs : List Char) : Option (List Char) :=
  let d1 := cs.takeWhile Char.isDigit
  let r1 := cs.dropWhile Char.isDigit
  if r1.take 1 = ['.'] then
    let d2 := r1.tail.takeWhile Char.isDigit
    if d2 ≠ [] then some (d1 ++ '.' :: d2)
    else if d1 ≠ [] then some d1
    else none
  else if d1 ≠ [] then some d1 else none

/-- One match attempt of `[-+]?\d*\.?\d+` at the current position: an
optional sign followed by the core.  (If the core fails after a sign, a
sign-free attempt at the same position fails as well, since the position
then starts with a sign character.) -/
def matchNumAt (cs : List Char) : Option (List Char) :=
  if cs.take 1 = ['-'] ∨ cs.take 1 = ['+'] then
    (matchCore cs.tail).map (fun m => cs.take 1 ++ m)
  else matchCore cs

/-- `re.search`: first position (leftmost) where the pattern matches. -/
def searchNum : List Char → Option (List Char)
  | [] => none
  | c :: t =>
    match matchNumAt (c :: t) with
    | some m => some m
    | none => searchNum t

/-- Value of an (unsigned) matched token `digits ['.' digits]` as a
rational; this is `float(...)` under the exact-arithmetic reading of Python
floats. -/
def unsignedVal (m : List Char) : ℚ :=
  let ip := m.takeWhile Char.isDigit
  let rest := m.dropWhile Char.isDigit
  if rest.take 1 = ['.'] then
    (digitsToNat ip : ℚ) + (digitsToNat rest.tail : ℚ) / (10 ^ rest.tail.length : ℚ)
  else (digitsToNat ip : ℚ)

/-- `float(...)` of a matched token, sign included. -/
def tokenVal (m : List Char) : ℚ :=
  if m.take 1 = ['-'] then -(unsignedVal m.tail)
  else if m.take 1 = ['+'] then unsignedVal m.tail
  else unsignedVal m

/-- The cleaning pipeline of `_parse_number` before the regex search:
drop euro signs, drop dots (thousands separators), turn commas into dots,
strip. -/
def cleanNumberText (text : List Char) : List Char :=
  trim (((text.filter (fun c => c ≠ '€')).filter (fun c => c ≠ '.')).map
    (fun c => if c = ',' then '.' else c))

def parseNumber (text : List Char) (default : ℚ) : ℚ :=
  if text = [] then default
  else
    match searchNum (cleanNumberText text) with
    | some m => tokenVal m
    | none => default

/-! ## `KontomanagerClient._parse_usage_bar` (client.py lines 103-112)

```
match = re.search(r'Verbraucht:\s*([\d\.,]+)\s*\(von\s*([\d\.,]+|unlimited)\s*(\w+)\)?',
                  text, re.IGNORECASE)
if match:
    used = self._parse_number(match.group(1))
    total_str = match.group(2)
    total = float('inf') if total_str.lower() == 'unlimited' else self._parse_number(total_str)
    unit = match.group(3)
    return used, total, unit
return 0.0, 0.0, ""
```

Within one attempt the pattern is deterministic except at two points:
the alternation `[\d\.,]+|unlimited` (whose branches start with disjoint
character sets, so at most one applies), and the greedy `[\d\.,]+` of
group 2, which may have to give back trailing characters so that the
mandatory `\w+` of group 3 can match (`\s*` in between then matches the
empty string, since the returned characters are not whitespace).
`numBranchAux` walks those give-backs from longest to shortest candidate.
All other greedy pieces are followed by characters disjoint from their own
class, hence maximal-munch is exact. -/

/-- Case-insensitive literal match: consume input characters whose
lowercased forms spell the (lowercase) pattern; returns the consumed
characters (original case) and the remainder. -/
def ciConsume : List Char → List Char → Option (List Char × List Char)
  | [], cs => some ([], cs)
  | _ :: _, [] => none
  | p :: ps, c :: cs =>
    if lowerChar c = p then (ciConsume ps cs).map (fun r => (c :: r.1, r.2))
    else none

/-- The suffix `\s*(\w+)\)?` after group 2: skip whitespace, take a
non-empty word-character run (the optional closing parenthesis constrains
nothing). -/
def tailMatch (cs : List Char) : Option (List Char) :=
  let w := (cs.dropWhile isSpaceChar).takeWhile isWordChar
  if w = [] then none else some w

/-- Backtracking over the greedy group-2 digit run: first argument is the
reversed current candidate, second the remainder; candidates are tried from
longest to shortest, never empty. -/
def numBranchAux : List Char → List Char → Option (List Char × List Char)
  | [], _ => none
  | c :: ds, rest =>
    match tailMatch rest with
    | some w => some ((c :: ds).reverse, w)
    | none => numBranchAux ds (c :: rest)

/-- The alternation `([\d\.,]+|unlimited)\s*(\w+)\)?`: returns
(group 2, group 3). -/
def matchTotalUnit (cs : List Char) : Option (List Char × List Char) :=
  let d2 := cs.takeWhile isClassChar
  if d2 = [] then
    match ciConsume ("unlimited".toList) cs with
    | some r =>
      match tailMatch r.2 with
      | some w => some (r.1, w)
      | none => none
    | none => none
  else numBranchAux d2.reverse (cs.dropWhile isClassChar)

/-- One attempt of the full usage-bar pattern at the current position:
returns (group 1, group 2, group 3). -/
def attemptAt (cs : List Char) : Option (List Char × List Char × List Char) :=
  match ciConsume ("verbraucht:".toList) cs with
  | none => none
  | some r0 =>
    let r1 := r0.2.dropWhile isSpaceChar
    let g1 := r1.takeWhile isClassChar
    if g1 = [] then none
    else
      let r2 := (r1.dropWhile isClassChar).dropWhile isSpaceChar
      if r2.take 1 = ['('] then
        match ciConsume ("von".toList) r2.tail with
        | some r4 =>
          match matchTotalUnit (r4.2.dropWhile isSpaceChar) with
          | some g23 => some (g1, g23.1, g23.2)
          | none => none
        | none => none
      else none

/-- `re.search` of the usage-bar pattern: leftmost successful attempt. -/
def searchUsage : List Char → Option (List Char × List Char × List Char)
  | [] => none
  | c :: t =>
    match attemptAt (c :: t) with
    | some r => some r
    | none => searchUsage t

/-- A Python float that is either finite (exact rational) or `float('inf')`.
The negative values produced by `_parse_number` stay inside `fin`. -/
inductive PyReal
  | fin (q : ℚ)
  | inf
deriving DecidableEq

/-- `x - y` for a finite float `y` (the only subtraction the client
performs): `inf - y = inf`, finite minus finite is exact. -/
def PyReal.subFin : PyReal → ℚ → PyReal
  | .fin a, b => .fin (a - b)
  | .inf, _ => .inf

/-- `_parse_usage_bar`.  The used component is always finite (it comes from
`_parse_number`), so it is returned as a bare rational; the total may be
`float('inf')`. -/
def parseUsageBar (text : List Char) : ℚ × PyReal × List Char :=
  match searchUsage text with
  | some g =>
    (parseNumber g.1 0,
     if g.2.1.map lowerChar = "unlimited".toList then PyReal.inf
     else PyReal.fin (parseNumber g.2.1 0),
     g.2.2)
  | none => (0, PyReal.fin 0, [])

/-! ## `UnitQuota` (models.py lines 9-16) and the three overview-parser
construction sites (client.py lines 173-214) -/

structure UnitQuota where
  name : Option (List Char) := none
  used : PyReal
  total : PyReal
  unit : List Char
  remaining : PyReal
  unlimited : Bool := false
deriving DecidableEq

/-- client.py lines 175-181: the quota built from one progress bar;
`none` is the `continue` branch taken when the bar text yields no unit.
```
used, total, unit = self._parse_usage_bar(bar_right_text)
if not unit: continue
quota = UnitQuota(used=used, total=total, unit=unit,
                  remaining=total - used, unlimited=(total == float('inf')))
``` -/
def quotaFromBar (barText : List Char) : Option UnitQuota :=
  let r := parseUsageBar barText
  if r.2.2 = [] then none
  else some { used := .fin r.1, total := r.2.1, unit := r.2.2,
              remaining := r.2.1.subFin r.1,
              unlimited := decide (r.2.1 = PyReal.inf) }

/-- client.py lines 183-184: `quota.copy(update=...)` re-labelling the bar
quota as the joint minutes/SMS quota. -/
def quotaMinutesSms (q : UnitQuota) : UnitQuota :=
  { q with unit := "Minutes/SMS".toList }

/-- One attempt of `([\d\.,]+)\s*MB von ([\d\.,]+)\s*MB` (client.py line
205) at the current position; every greedy piece is followed by characters
disjoint from its own class, so the pattern is deterministic. -/
def euAttempt (cs : List Char) : Option (List Char × List Char) :=
  let g1 := cs.takeWhile isClassChar
  if g1 = [] then none
  else
    let r1 := (cs.dropWhile isClassChar).dropWhile isSpaceChar
    if r1.take 7 = "MB von ".toList then
      let r2 := r1.drop 7
      let g2 := r2.takeWhile isClassChar
      if g2 = [] then none
      else
        let r3 := (r2.dropWhile isClassChar).dropWhile isSpaceChar
        if r3.take 2 = "MB".toList then some (g1, g2) else none
    else none

def euSearch : List Char → Option (List Char × List Char)
  | [] => none
  | c :: t =>
    match euAttempt (c :: t) with
    | some r => some r
    | none => euSearch t

/-- client.py lines 204-209: EU-data quota from the detail-row value.
```
match = re.search(r'([\d\.,]+)\s*MB von ([\d\.,]+)\s*MB', value)
if match:
    remaining_eu = self._parse_number(match.group(1))
    total_eu = self._parse_number(match.group(2))
    package.data_eu = UnitQuota(used=total_eu - remaining_eu, total=total_eu,
                                unit="MB", remaining=remaining_eu)
``` -/
def quotaFromEuDetail (value : List Char) : Option UnitQuota :=
  match euSearch value with
  | some g =>
    let remainingEu := parseNumber g.1 0
    let totalEu := parseNumber g.2 0
    some { used := .fin (totalEu - remainingEu), total := .fin totalEu,
           unit := "MB".toList, remaining := .fin remainingEu }
  | none => none

/-- client.py line 211: carried-over-data quota from the detail-row value.
```
package.data_carried_over = UnitQuota(used=0, total=self._parse_number(value),
                                      unit="MB", remaining=self._parse_number(value))
``` -/
def quotaFromCarryOver (value : List Char) : UnitQuota :=
  { used := .fin 0, total := .fin (parseNumber value 0), unit := "MB".toList,
    remaining := .fin (parseNumber value 0) }

/-! ## Claim C2 -/

theorem normalizePhone_shape (s : List Char) :
    normalizePhone s = [] ∨
      ∃ ds, normalizePhone s = '+' :: '4' :: '3' :: ds ∧ ∀ c ∈ ds, Char.isDigit c := by
  by_cases h0 : s = []
  · left; simp [normalizePhone, h0]
  · have hall : ∀ c ∈ s.filter Char.isDigit, Char.isDigit c :=
      fun c hc => List.of_mem_filter hc
    rcases hd : s.filter Char.isDigit with _ | ⟨c1, rest⟩
    · left; simp [normalizePhone, h0, hd]
    · rw [hd] at hall
      right
      by_cases h2 : (c1 :: rest).take 2 = ['4', '3']
      · rcases rest with _ | ⟨c2, tail⟩
        · simp at h2
        · simp only [List.take, List.cons.injEq, and_true] at h2
          obtain ⟨e1, e2⟩ := h2
          subst e1; subst e2
          refine ⟨tail, ?_, fun c hc => hall c (by simp [hc])⟩
          simp [normalizePhone, h0, hd]
      · by_cases h3 : (c1 :: rest).take 1 = ['0']
        · simp only [List.take, List.cons.injEq, and_true] at h3
          subst h3
          refine ⟨rest, ?_, fun c hc => hall c (by simp [hc])⟩
          simp [normalizePhone, h0, hd, h2]
        · refine ⟨c1 :: rest, ?_, hall⟩
          simp only [List.take, List.cons.injEq, and_true] at h2 h3
          simp [normalizePhone, h0, hd, h2, h3]

theorem normalizePhone_of_digits (ds : List Char) (h : ∀ c ∈ ds, Char.isDigit c) :
    normalizePhone ('+' :: '4' :: '3' :: ds) = '+' :: '4' :: '3' :: ds := by
  have h4 : Char.isDigit '4' = true := by decide
  have h3 : Char.isDigit '3' = true := by decide
  have hp : Char.isDigit '+' = false := by decide
  have hf : ('+' :: '4' :: '3' :: ds).filter Char.isDigit = '4' :: '3' :: ds := by
    simp [List.filter_cons, h4, h3, hp, List.filter_eq_self.mpr h]
  simp [normalizePhone, hf]

/-- C2: phone-number normalization (`_normalize_phone_number`) is
idempotent, and its result is either the empty string or a string starting
with the characters `+43`. -/
theorem c2_normalize_phone (s : List Char) :
    normalizePhone (normalizePhone s) = normalizePhone s ∧
      (normalizePhone s = [] ∨ (normalizePhone s).take 3 = ['+', '4', '3']) := by
  rcases normalizePhone_shape s with h | ⟨ds, hds, hdig⟩
  · rw [h]; exact ⟨by simp [normalizePhone], Or.inl rfl⟩
  · rw [hds]
    exact ⟨normalizePhone_of_digits ds hdig, Or.inr (by simp)⟩

/-! ## Claim C9 -/

theorem parseNumber_eval (text m : List Char) (d : ℚ) (h0 : text ≠ [])
    (h1 : searchNum (cleanNumberText text) = some m) :
    parseNumber text d = tokenVal m := by
  simp [parseNumber, h0, h1]

theorem tokenVal_unsigned (m : List Char) (h1 : m.take 1 ≠ ['-'])
    (h2 : m.take 1 ≠ ['+']) : tokenVal m = unsignedVal m := by
  simp [tokenVal, h1, h2]

theorem unsignedVal_frac (m ip fp : List Char)
    (hip : m.takeWhile Char.isDigit = ip)
    (hrest : m.dropWhile Char.isDigit = '.' :: fp) :
    unsignedVal m = (digitsToNat ip : ℚ) + (digitsToNat fp : ℚ) / (10 ^ fp.length : ℚ) := by
  simp [unsignedVal, hip, hrest]

theorem unsignedVal_int (m ip : List Char)
    (hip : m.takeWhile Char.isDigit = ip)
    (hrest : (m.dropWhile Char.isDigit).take 1 ≠ ['.']) :
    unsignedVal m = (digitsToNat ip : ℚ) := by
  simp [unsignedVal, hip, hrest]

theorem matchCore_none_of_no_digit (cs : List Char)
    (h : ∀ c ∈ cs, Char.isDigit c = false) : matchCore cs = none := by
  have hd1 : cs.takeWhile Char.isDigit = [] := by
    cases cs with
    | nil => rfl
    | cons c t => simp [List.takeWhile, h c (by simp)]
  have hr1 : cs.dropWhile Char.isDigit = cs := by
    cases cs with
    | nil => rfl
    | cons c t => simp [List.dropWhile, h c (by simp)]
  unfold matchCore
  rw [hd1, hr1]
  by_cases hdot : cs.take 1 = ['.']
  · have htail : ∀ c ∈ cs.tail, Char.isDigit c = false :=
      fun c hc => h c (List.tail_subset cs hc)
    have hd2 : cs.tail.takeWhile Char.isDigit = [] := by
      cases ht : cs.tail with
      | nil => rfl
      | cons c t => simp [List.takeWhile, htail c (by rw [ht]; simp)]
    simp [hdot, hd2]
  · simp [hdot]

theorem searchNum_none_of_no_digit (cs : List Char)
    (h : ∀ c ∈ cs, Char.isDigit c = false) : searchNum cs = none := by
  induction cs with
  | nil => rfl
  | cons c t ih =>
    have hstep : matchNumAt (c :: t) = none := by
      unfold matchNumAt
      by_cases hsign : c = '-' ∨ c = '+'
      · have htl : matchCore t = none :=
          matchCore_none_of_no_digit t (fun x hx => h x (by simp [hx]))
        simp [hsign, htl]
      · have hall : matchCore (c :: t) = none := matchCore_none_of_no_digit _ h
        simp [hsign, hall]
    unfold searchNum
    rw [hstep]
    exact ih (fun x hx => h x (by simp [hx]))

/-- C9: `_parse_number` maps `"1.234,56"` to `1234.56` and `"0,5 €"` to
`0.5`; on empty input, and on any input whose cleaned form contains no
digit (hence no numeric token), it returns the supplied default. -/
theorem c9_parse_number (d : ℚ) (text : List Char)
    (hno : ∀ c ∈ cleanNumberText text, Char.isDigit c = false) :
    parseNumber ("1.234,56".toList) d = 1234.56 ∧
      parseNumber ("0,5 €".toList) d = 0.5 ∧
      parseNumber [] d = d ∧
      parseNumber text d = d := by
  refine ⟨?_, ?_, by simp [parseNumber], ?_⟩
  · rw [parseNumber_eval _ ("1234.56".toList) d (by decide) (by decide),
      tokenVal_unsigned _ (by decide) (by decide),
      unsignedVal_frac _ ("1234".toList) ("56".toList) (by decide) (by decide)]
    have e1 : digitsToNat ("1234".toList) = 1234 := by decide
    have e2 : digitsToNat ("56".toList) = 56 := by decide
    have e3 : ("56".toList).length = 2 := by decide
    rw [e1, e2, e3]
    norm_num
  · rw [parseNumber_eval _ ("0.5".toList) d (by decide) (by decide),
      tokenVal_unsigned _ (by decide) (by decide),
      unsignedVal_frac _ ("0".toList) ("5".toList) (by decide) (by decide)]
    have e1 : digitsToNat ("0".toList) = 0 := by decide
    have e2 : digitsToNat ("5".toList) = 5 := by decide
    have e3 : ("5".toList).length = 1 := by decide
    rw [e1, e2, e3]
    norm_num
  · by_cases h0 : text = []
    · simp [parseNumber, h0]
    · simp [parseNumber, h0, searchNum_none_of_no_digit _ hno]

/-- C9 witness: the theorem applied at default `7` and input `"abc"`. -/
theorem c9_parse_number_witness :
    parseNumber ("1.234,56".toList) 7 = 1234.56 ∧
      parseNumber ("0,5 €".toList) 7 = 0.5 ∧
      parseNumber [] 7 = 7 ∧
      parseNumber ("abc".toList) 7 = 7 :=
  c9_parse_number 7 ("abc".toList) (by decide)

/-! ## Claim C3 -/

theorem quotaFromBar_inv (s : List Char) (q : UnitQuota)
    (h : quotaFromBar s = some q) (hq : q.unlimited = false) :
    ∃ t u : ℚ, q.total = .fin t ∧ q.used = .fin u ∧ q.remaining = .fin (t - u) := by
  unfold quotaFromBar at h
  by_cases hu : (parseUsageBar s).2.2 = []
  · simp [hu] at h
  · simp only [hu, if_false, Option.some.injEq] at h
    subst h
    rcases ht : (parseUsageBar s).2.1 with t | _
    · exact ⟨t, (parseUsageBar s).1, by simp [ht], rfl, by simp [ht, PyReal.subFin]⟩
    · rw [ht] at hq
      simp at hq

/-- C3: every `UnitQuota` the overview parser constructs — from a usage bar
(including its minutes/SMS relabelled copy), from the EU-data detail row,
or from the carried-over-data row — with `unlimited = false` has finite
`total` and `used` and satisfies `remaining = total - used`. -/
theorem c3_quota_invariant (s : List Char) (q : UnitQuota)
    (h : quotaFromBar s = some q ∨
      (∃ q0, quotaFromBar s = some q0 ∧ q = quotaMinutesSms q0) ∨
      quotaFromEuDetail s = some q ∨ q = quotaFromCarryOver s)
    (hq : q.unlimited = false) :
    ∃ t u : ℚ, q.total = .fin t ∧ q.used = .fin u ∧ q.remaining = .fin (t - u) := by
  rcases h with h | ⟨q0, h0, rfl⟩ | h | rfl
  · exact quotaFromBar_inv s q h hq
  · obtain ⟨t, u, h1, h2, h3⟩ := quotaFromBar_inv s q0 h0 (by simpa [quotaMinutesSms] using hq)
    exact ⟨t, u, by simpa [quotaMinutesSms] using h1, by simpa [quotaMinutesSms] using h2,
      by simpa [quotaMinutesSms] using h3⟩
  · unfold quotaFromEuDetail at h
    rcases he : euSearch s with _ | g
    · rw [he] at h; simp at h
    · rw [he] at h
      simp only [Option.some.injEq] at h
      subst h
      refine ⟨parseNumber g.2 0, parseNumber g.2 0 - parseNumber g.1 0, rfl, rfl, ?_⟩
      rw [show parseNumber g.2 0 - (parseNumber g.2 0 - parseNumber g.1 0) = parseNumber g.1 0
        from by ring]
  · exact ⟨parseNumber s 0, 0, rfl, rfl, by simp [quotaFromCarryOver, sub_zero]⟩

/-- C3 witness: the carried-over-data site applied at input `"10"`. -/
theorem c3_quota_invariant_witness :
    ∃ t u : ℚ, (quotaFromCarryOver ("10".toList)).total = .fin t ∧
      (quotaFromCarryOver ("10".toList)).used = .fin u ∧
      (quotaFromCarryOver ("10".toList)).remaining = .fin (t - u) :=
  c3_quota_invariant ("10".toList) (quotaFromCarryOver ("10".toList))
    (Or.inr (Or.inr (Or.inr rfl))) rfl

/-! ## Claim C4 -/

theorem toNat_ofNat_valid (n : Nat) (h : n < 55296) : (Char.ofNat n).toNat = n := by
  rw [Char.ofNat, dif_pos (Or.inl h)]
  simp [Char.ofNatAux, Char.toNat, UInt32.toNat]

theorem char_eq_of_toNat (c : Char) (n : Nat) (hn : n < 55296)
    (h : c.toNat = n) : c = Char.ofNat n := by
  apply Char.ext
  apply UInt32.toNat.inj
  change c.toNat = (Char.ofNat n).toNat
  rw [toNat_ofNat_valid n hn, h]

theorem lowerChar_u (c : Char) (h : lowerChar c = 'u') : c = 'u' ∨ c = 'U' := by
  unfold lowerChar at h
  split at h
  · rename_i hr
    have h2 := congrArg Char.toNat h
    rw [toNat_ofNat_valid (c.toNat + 32) (by omega)] at h2
    have hu : ('u' : Char).toNat = 117 := by decide
    have h3 : c.toNat = 85 := by omega
    right
    have h4 := char_eq_of_toNat c 85 (by omega) h3
    rw [h4]
  · exact Or.inl h

theorem head_facts_of_lower_u (c : Char) (h : lowerChar c = 'u') :
    isClassChar c = false ∧ isSpaceChar c = false := by
  rcases lowerChar_u c h with rfl | rfl <;> exact ⟨by decide, by decide⟩

theorem ciConsume_of_map (u r : List Char) :
    ciConsume (u.map lowerChar) (u ++ r) = some (u, r) := by
  induction u with
  | nil => rfl
  | cons c t ih => simp [ciConsume, ih]

theorem matchTotalUnit_unlimited (u w suf : List Char)
    (hu : u.map lowerChar = "unlimited".toList)
    (hw : tailMatch suf = some w) :
    matchTotalUnit (u ++ suf) = some (u, w) := by
  have hu0 := hu
  have hcons : ∃ c u2, u = c :: u2 := by
    cases u with
    | nil => exact absurd hu (by decide)
    | cons c u2 => exact ⟨c, u2, rfl⟩
  obtain ⟨c, u2, rfl⟩ := hcons
  have hlit : ("unlimited".toList : List Char) =
      'u' :: 'n' :: 'l' :: 'i' :: 'm' :: 'i' :: 't' :: 'e' :: 'd' :: [] := rfl
  rw [hlit] at hu
  simp only [List.map_cons, List.cons.injEq] at hu
  obtain ⟨hclass, _⟩ := head_facts_of_lower_u c hu.1
  have hci2 : ciConsume ('u' :: 'n' :: 'l' :: 'i' :: 'm' :: 'i' :: 't' :: 'e' :: 'd' :: [])
      (c :: (u2 ++ suf)) = some (c :: u2, suf) := by
    rw [← List.cons_append, ← hlit, ← hu0]
    exact ciConsume_of_map (c :: u2) suf
  simp [matchTotalUnit, hclass, hci2, hw, hlit]

theorem attemptAt_pre (Y : List Char) :
    attemptAt ("Verbraucht: 1 (von ".toList ++ Y) =
      match matchTotalUnit (Y.dropWhile isSpaceChar) with
      | some g23 => some (['1'], g23.1, g23.2)
      | none => none := by
  have f1 : isSpaceChar ' ' = true := by decide
  have f2 : isSpaceChar '1' = false := by decide
  have f3 : isClassChar '1' = true := by decide
  have f4 : isClassChar ' ' = false := by decide
  have f5 : isSpaceChar '(' = false := by decide
  have f6 : lowerChar 'v' = 'v' := by decide
  have f7 : lowerChar 'o' = 'o' := by decide
  have f8 : lowerChar 'n' = 'n' := by decide
  have f9 : lowerChar 'V' = 'v' := by decide
  have f10 : lowerChar 'e' = 'e' := by decide
  have f11 : lowerChar 'r' = 'r' := by decide
  have f12 : lowerChar 'b' = 'b' := by decide
  have f13 : lowerChar 'a' = 'a' := by decide
  have f14 : lowerChar 'u' = 'u' := by decide
  have f15 : lowerChar 'c' = 'c' := by decide
  have f16 : lowerChar 'h' = 'h' := by decide
  have f17 : lowerChar 't' = 't' := by decide
  have f18 : lowerChar ':' = ':' := by decide
  simp [attemptAt, ciConsume, List.cons_append, List.nil_append,
    List.dropWhile_cons, List.takeWhile_cons,
    f1, f2, f3, f4, f5, f6, f7, f8, f9, f10, f11, f12, f13, f14, f15, f16, f17, f18]

theorem searchUsage_cons (c : Char) (t : List Char) :
    searchUsage (c :: t) =
      match attemptAt (c :: t) with
      | some r => some r
      | none => searchUsage t := rfl

/-- C4: `_parse_usage_bar` maps `"Verbraucht: 2,5 (von 10 GB)"` to
`(2.5, 10, "GB")`; when the total is written as the word `unlimited` in any
letter case it returns positive infinity as the total; and on any text the
pattern search does not match it returns `(0, 0, "")`. -/
theorem c4_usage_bar (u t : List Char)
    (hu : u.map lowerChar = "unlimited".toList)
    (ht : searchUsage t = none) :
    parseUsageBar ("Verbraucht: 2,5 (von 10 GB)".toList) =
      (2.5, PyReal.fin 10, "GB".toList) ∧
      parseUsageBar ("Verbraucht: 1 (von ".toList ++ u ++ " MB)".toList) =
        (1, PyReal.inf, "MB".toList) ∧
      parseUsageBar t = (0, PyReal.fin 0, []) := by
  refine ⟨?_, ?_, by unfold parseUsageBar; rw [ht]⟩
  · have hs1 : searchUsage ("Verbraucht: 2,5 (von 10 GB)".toList) =
        some ("2,5".toList, "10".toList, "GB".toList) := by decide
    have hnl : ¬ (("10".toList).map lowerChar = "unlimited".toList) := by decide
    have hused : parseNumber ("2,5".toList) 0 = 2.5 := by
      rw [parseNumber_eval _ ("2.5".toList) 0 (by decide) (by decide),
        tokenVal_unsigned _ (by decide) (by decide),
        unsignedVal_frac _ ("2".toList) ("5".toList) (by decide) (by decide)]
      have e1 : digitsToNat ("2".toList) = 2 := by decide
      have e2 : digitsToNat ("5".toList) = 5 := by decide
      have e3 : ("5".toList).length = 1 := by decide
      rw [e1, e2, e3]
      norm_num
    have htotal : parseNumber ("10".toList) 0 = 10 := by
      rw [parseNumber_eval _ ("10".toList) 0 (by decide) (by decide),
        tokenVal_unsigned _ (by decide) (by decide),
        unsignedVal_int _ ("10".toList) (by decide) (by decide)]
      have e1 : digitsToNat ("10".toList) = 10 := by decide
      rw [e1]
      norm_num
    have key : parseUsageBar ("Verbraucht: 2,5 (von 10 GB)".toList) =
        (parseNumber ("2,5".toList) 0,
         if ("10".toList).map lowerChar = "unlimited".toList then PyReal.inf
         else PyReal.fin (parseNumber ("10".toList) 0), "GB".toList) := by
      unfold parseUsageBar
      rw [hs1]
    rw [key, if_neg hnl, hused, htotal]
  · have hsuf : tailMatch (" MB)".toList) = some ("MB".toList) := by decide
    have hY : matchTotalUnit (u ++ " MB)".toList) = some (u, "MB".toList) :=
      matchTotalUnit_unlimited u ("MB".toList) (" MB)".toList) hu hsuf
    have hcons : ∃ c u2, u = c :: u2 := by
      cases u with
      | nil => exact absurd hu (by decide)
      | cons c u2 => exact ⟨c, u2, rfl⟩
    obtain ⟨c, u2, hcu⟩ := hcons
    have hc : lowerChar c = 'u' := by
      rw [hcu] at hu
      have hlit : ("unlimited".toList : List Char) =
          'u' :: 'n' :: 'l' :: 'i' :: 'm' :: 'i' :: 't' :: 'e' :: 'd' :: [] := rfl
      rw [hlit] at hu
      simp only [List.map_cons, List.cons.injEq] at hu
      exact hu.1
    obtain ⟨_, hspace⟩ := head_facts_of_lower_u c hc
    have hdropY : (u ++ " MB)".toList).dropWhile isSpaceChar = u ++ " MB)".toList := by
      rw [hcu]
      simp [List.dropWhile_cons, hspace]
    have hatt : attemptAt ("Verbraucht: 1 (von ".toList ++ (u ++ " MB)".toList)) =
        some (['1'], u, "MB".toList) := by
      rw [attemptAt_pre (u ++ " MB)".toList), hdropY, hY]
    have hfull : ("Verbraucht: 1 (von ".toList : List Char) ++ (u ++ " MB)".toList) =
        'V' :: ("erbraucht: 1 (von ".toList ++ (u ++ " MB)".toList)) := rfl
    have hsearch : searchUsage ("Verbraucht: 1 (von ".toList ++ (u ++ " MB)".toList)) =
        some (['1'], u, "MB".toList) := by
      rw [hfull, searchUsage_cons, ← hfull, hatt]
    have hused : parseNumber (['1'] : List Char) 0 = 1 := by
      rw [parseNumber_eval _ (['1']) 0 (by decide) (by decide),
        tokenVal_unsigned _ (by decide) (by decide),
        unsignedVal_int _ (['1']) (by decide) (by decide)]
      have e1 : digitsToNat ['1'] = 1 := by decide
      rw [e1]
      norm_num
    have key : parseUsageBar ("Verbraucht: 1 (von ".toList ++ (u ++ " MB)".toList)) =
        (parseNumber (['1'] : List Char) 0,
         if u.map lowerChar = "unlimited".toList then PyReal.inf
         else PyReal.fin (parseNumber u 0), "MB".toList) := by
      unfold parseUsageBar
      rw [hsearch]
    rw [List.append_assoc, key, if_pos hu, hused]

/-- C4 witness: the theorem applied with `u = "UnLiMiTeD"` and the
non-matching text `"no bar here"`. -/
theorem c4_usage_bar_witness :
    parseUsageBar ("Verbraucht: 2,5 (von 10 GB)".toList) =
      (2.5, PyReal.fin 10, "GB".toList) ∧
      parseUsageBar ("Verbraucht: 1 (von ".toList ++ "UnLiMiTeD".toList ++
        " MB)".toList) = (1, PyReal.inf, "MB".toList) ∧
      parseUsageBar ("no bar here".toList) = (0, PyReal.fin 0, []) :=
  c4_usage_bar ("UnLiMiTeD".toList) ("no bar here".toList) (by decide) (by decide)

/-! ## `datetime.strptime` for the fixed layouts the client uses

CPython's `_strptime` compiles `%d`/`%m`/`%H`/`%M`/`%S` to alternations
that prefer a two-digit form and fall back to one digit, `%Y` to exactly
four digits, requires the whole string to be consumed, and then validates
the captured fields through the `datetime` constructor (day against the
month length, seconds at most 59, year at least 1).  `fieldCands` lists the
alternatives of one field in alternation order; the candidate lists thread
backtracking, and the first full match wins. -/

structure DateTime6 where
  year : Nat
  month : Nat
  day : Nat
  hour : Nat
  minute : Nat
  second : Nat
deriving DecidableEq

structure PyDate where
  year : Nat
  month : Nat
  day : Nat
deriving DecidableEq

def isLeapYear (y : Nat) : Bool :=
  (y % 4 = 0 && y % 100 ≠ 0) || y % 400 = 0

def daysInMonth (y m : Nat) : Nat :=
  if m = 2 then (if isLeapYear y then 29 else 28)
  else if m = 4 ∨ m = 6 ∨ m = 9 ∨ m = 11 then 30 else 31

def twoDigitCands (lo hi : Nat) : List Char → List (Nat × List Char)
  | a :: b :: rest =>
    if a.isDigit && b.isDigit then
      let v := (a.toNat - 48) * 10 + (b.toNat - 48)
      if lo ≤ v ∧ v ≤ hi then [(v, rest)] else []
    else []
  | _ => []

def oneDigitCands (lo hi : Nat) : List Char → List (Nat × List Char)
  | a :: rest =>
    if a.isDigit then
      let v := a.toNat - 48
      if lo ≤ v ∧ v ≤ hi then [(v, rest)] else []
    else []
  | [] => []

def fieldCands (lo2 hi2 lo1 hi1 : Nat) (s : List Char) : List (Nat × List Char) :=
  twoDigitCands lo2 hi2 s ++ oneDigitCands lo1 hi1 s

def litCands (c : Char) : List Char → List (List Char)
  | a :: rest => if a = c then [rest] else []
  | [] => []

def yearCands : List Char → List (Nat × List Char)
  | a :: b :: c :: d :: rest =>
    if a.isDigit && b.isDigit && c.isDigit && d.isDigit then
      [((((a.toNat - 48) * 10 + (b.toNat - 48)) * 10 + (c.toNat - 48)) * 10 + (d.toNat - 48),
        rest)]
    else []
  | _ => []

/-- All full matches of `%d.%m.%Y %H:%M:%S` against the whole string, in
backtracking order. -/
def timestampCands (s : List Char) : List DateTime6 :=
  (fieldCands 1 31 1 9 s).flatMap (fun dc =>
   (litCands '.' dc.2).flatMap (fun r1 =>
    (fieldCands 1 12 1 9 r1).flatMap (fun mc =>
     (litCands '.' mc.2).flatMap (fun r2 =>
      (yearCands r2).flatMap (fun yc =>
       (litCands ' ' yc.2).flatMap (fun r3 =>
        (fieldCands 0 23 0 9 r3).flatMap (fun hc =>
         (litCands ':' hc.2).flatMap (fun r4 =>
          (fieldCands 0 59 0 9 r4).flatMap (fun mic =>
           (litCands ':' mic.2).flatMap (fun r5 =>
            (fieldCands 0 61 0 9 r5).flatMap (fun sc =>
             if sc.2 = [] then
               [⟨yc.1, mc.1, dc.1, hc.1, mic.1, sc.1⟩]
             else [])))))))))))

/-- `datetime.strptime(s, "%d.%m.%Y %H:%M:%S")` as a total function;
`none` is a raised `ValueError` (no regex match, or a field the
`datetime` constructor rejects). -/
def parseTimestamp (s : List Char) : Option DateTime6 :=
  match timestampCands s with
  | [] => none
  | t :: _ =>
    if 1 ≤ t.year ∧ t.day ≤ daysInMonth t.year t.month ∧ t.second ≤ 59 then some t
    else none

/-- All full matches of `%d.%m.%Y` against the whole string. -/
def dateCands (s : List Char) : List PyDate :=
  (fieldCands 1 31 1 9 s).flatMap (fun dc =>
   (litCands '.' dc.2).flatMap (fun r1 =>
    (fieldCands 1 12 1 9 r1).flatMap (fun mc =>
     (litCands '.' mc.2).flatMap (fun r2 =>
      (yearCands r2).flatMap (fun yc =>
       if yc.2 = [] then [⟨yc.1, mc.1, dc.1⟩] else [])))))

/-- `datetime.strptime(s, "%d.%m.%Y").date()` as a total function. -/
def parseDateDMY (s : List Char) : Option PyDate :=
  match dateCands s with
  | [] => none
  | t :: _ =>
    if 1 ≤ t.year ∧ t.day ≤ daysInMonth t.year t.month then some t
    else none

/-! ## `KontomanagerClient.list_call_history` (client.py lines 374-421) -/

/-- models.py lines 56-62. -/
structure CallHistoryEntry where
  timestamp : DateTime6
  type : List Char
  number : List Char
  duration : Option (List Char) := none
  cost : ℚ
deriving DecidableEq

def keyTimestamp : List Char := "datum/uhrzeit".toList
def keyDurationCost : List Char := "dauer/kosten".toList
def keyType : List Char := "art".toList
def keyNumber : List Char := "nummer".toList
def valUnknown : List Char := "Unbekannt".toList
def zeroDuration : List Char := "0:00:00".toList
def zeroCostText : List Char := "0".toList

/-- client.py lines 396-419: processing of one call-history block after the
selector loop has reduced it to its label-to-value mapping `data`.
```
timestamp_str = data.get("datum/uhrzeit")
if not timestamp_str: continue
dauer_kosten_str = data.get("dauer/kosten", "")
parts = dauer_kosten_str.split('/')
duration = parts[0].strip() if parts else "0:00:00"
cost_str = parts[1].strip() if len(parts) > 1 else "0"
try:
    entry = CallHistoryEntry(timestamp=datetime.strptime(timestamp_str, "%d.%m.%Y %H:%M:%S"),
                             type=data.get("art", "Unbekannt"), number=data.get("nummer", ""),
                             duration=duration, cost=self._parse_number(cost_str))
    history.append(entry)
except ValueError:
    continue
```
`none` is a skipped block (missing/empty timestamp, or the `ValueError`
raised by `strptime`). -/
def processBlock (data : List Char → Option (List Char)) : Option CallHistoryEntry :=
  let ts0 := (data keyTimestamp).getD []
  if ts0 = [] then none
  else
    let dk := (data keyDurationCost).getD []
    let parts := pySplit '/' dk
    let duration :=
      match parts with
      | p :: _ => trim p
      | [] => zeroDuration
    let costStr :=
      match parts with
      | _ :: c :: _ => trim c
      | _ => zeroCostText
    match parseTimestamp ts0 with
    | some ts =>
      some { timestamp := ts,
             type := (data keyType).getD valUnknown,
             number := (data keyNumber).getD [],
             duration := some duration,
             cost := parseNumber costStr 0 }
    | none => none

/-- The whole-listing loop: skipped blocks contribute nothing and never
abort the traversal. -/
def listCallHistory (blocks : List (List Char → Option (List Char))) :
    List CallHistoryEntry :=
  blocks.filterMap processBlock

/-! ## Claim C5 -/

theorem pySplit_no_sep (sep : Char) (l : List Char) (h : sep ∉ l) :
    pySplit sep l = [l] := by
  induction l with
  | nil => rfl
  | cons c t ih =>
    have hc : ¬ (c = sep) := by
      rintro rfl
      exact h (by simp)
    have ht : sep ∉ t := fun hm => h (by simp [hm])
    simp [pySplit, hc, ih ht]

theorem parseNumber_zero_text : parseNumber zeroCostText 0 = 0 := by
  rw [show zeroCostText = "0".toList from rfl,
    parseNumber_eval _ ("0".toList) 0 (by decide) (by decide),
    tokenVal_unsigned _ (by decide) (by decide),
    unsignedVal_int _ ("0".toList) (by decide) (by decide)]
  have e1 : digitsToNat ("0".toList) = 0 := by decide
  rw [e1]
  norm_num

theorem processBlock_noSlash (data : List Char → Option (List Char))
    (ts : List Char) (t : DateTime6)
    (hts : data keyTimestamp = some ts) (hparse : parseTimestamp ts = some t)
    (hslash : '/' ∉ (data keyDurationCost).getD []) :
    processBlock data =
      some { timestamp := t,
             type := (data keyType).getD valUnknown,
             number := (data keyNumber).getD [],
             duration := some (trim ((data keyDurationCost).getD [])),
             cost := 0 } := by
  have hne : ts ≠ [] := by
    rintro rfl
    simp [parseTimestamp, timestampCands, fieldCands, twoDigitCands, oneDigitCands]
      at hparse
  have hsplit := pySplit_no_sep '/' _ hslash
  simp [processBlock, hts, hne, hparse, hsplit, parseNumber_zero_text]

/-- The data map of a concrete call-history block whose duration/cost field
is `"5"` (no slash) and whose timestamp is valid. -/
def histBlock0 : List Char → Option (List Char) := fun k =>
  if k = keyTimestamp then some ("01.02.2024 03:04:05".toList)
  else if k = keyDurationCost then some ("5".toList) else none

/-- C5 counterexample: a block whose duration/cost field contains no `/`
produces the whole stripped field text as the duration, not the
`"0:00:00"` zero-duration default the claim promises. -/
theorem c5_counterexample :
    ('/' ∉ (histBlock0 keyDurationCost).getD []) ∧
      ∃ e, processBlock histBlock0 = some e ∧ e.duration ≠ some zeroDuration := by
  refine ⟨by decide, ?_⟩
  have hk := processBlock_noSlash histBlock0 ("01.02.2024 03:04:05".toList)
    ⟨2024, 2, 1, 3, 4, 5⟩ (by decide) (by decide) (by decide)
  refine ⟨_, hk, ?_⟩
  have : trim ((histBlock0 keyDurationCost).getD []) = "5".toList := by decide
  rw [this]
  decide

/-- C5 amended: a block with a missing or empty timestamp is skipped; a
block whose timestamp fails to parse as day.month.year
hour:minute:second is skipped without aborting the traversal; the
duration/cost field is split on `/`, and a block with no `/` (in
particular one with no duration/cost field at all) yields cost text `"0"`
(hence cost `0`) and a duration equal to the whole stripped field text —
the `"0:00:00"` zero-duration default is unreachable because `str.split`
always returns at least one part. -/
theorem c5_call_history (data : List Char → Option (List Char)) :
    ((data keyTimestamp).getD [] = [] → processBlock data = none) ∧
      (∀ ts, data keyTimestamp = some ts → ts ≠ [] →
        parseTimestamp ts = none → processBlock data = none) ∧
      (∀ ts t, data keyTimestamp = some ts → parseTimestamp ts = some t →
        '/' ∉ (data keyDurationCost).getD [] →
        processBlock data =
          some { timestamp := t,
                 type := (data keyType).getD valUnknown,
                 number := (data keyNumber).getD [],
                 duration := some (trim ((data keyDurationCost).getD [])),
                 cost := 0 }) ∧
      listCallHistory [data] = (processBlock data).toList := by
  refine ⟨fun h => by simp [processBlock, h], ?_, ?_, ?_⟩
  · intro ts hts hne hfail
    simp [processBlock, hts, hne, hfail]
  · intro ts t hts hparse hslash
    exact processBlock_noSlash data ts t hts hparse hslash
  · simp [listCallHistory, List.filterMap]
    cases processBlock data <;> rfl

/-- C5 witness: the amended theorem applied at the concrete block. -/
theorem c5_call_history_witness :
    ((histBlock0 keyTimestamp).getD [] = [] → processBlock histBlock0 = none) ∧
      (∀ ts, histBlock0 keyTimestamp = some ts → ts ≠ [] →
        parseTimestamp ts = none → processBlock histBlock0 = none) ∧
      (∀ ts t, histBlock0 keyTimestamp = some ts → parseTimestamp ts = some t →
        '/' ∉ (histBlock0 keyDurationCost).getD [] →
        processBlock histBlock0 =
          some { timestamp := t,
                 type := (histBlock0 keyType).getD valUnknown,
                 number := (histBlock0 keyNumber).getD [],
                 duration := some (trim ((histBlock0 keyDurationCost).getD [])),
                 cost := 0 }) ∧
      listCallHistory [histBlock0] = (processBlock histBlock0).toList :=
  c5_call_history histBlock0

/-! ## `KontomanagerClient.set_sim_setting` (client.py lines 443-466)

```
token = sel.css("input[name='token']::attr(value)").get()
if not token:
    raise KontomanagerClientError("Could not find CSRF token to change SIM settings.")
payload = {"key": setting_name.replace('_', '-'),
           "value": 't' if enabled else 'f', "token": token}
response = await self._session.post("einstellungen_sim_setdata.php", data=payload)
if response.text.strip().upper() != "OK":
    raise KontomanagerClientError(...)
return f"Successfully set ..."
```

`token` is the result of the CSRF-token query on the settings page and
`post` maps the submitted form payload to the body of the portal's
response to the POST.  The exception messages are fixed markers standing
for the source's f-strings. -/

def okMarker : List Char := "OK".toList
def msgNoToken : List Char := "Could not find CSRF token to change SIM settings.".toList
def msgSetFailed : List Char := "Failed to set the SIM setting.".toList
def msgSetOk : List Char := "Successfully set the SIM setting.".toList

def simSetPayload (settingName : List Char) (enabled : Bool) (tok : List Char) :
    List (List Char × List Char) :=
  [("key".toList, settingName.map (fun c => if c = '_' then '-' else c)),
   ("value".toList, if enabled then ['t'] else ['f']),
   ("token".toList, tok)]

def setSimSetting (token : Option (List Char))
    (post : List (List Char × List Char) → List Char)
    (settingName : List Char) (enabled : Bool) : Except (List Char) (List Char) :=
  if token.getD [] = [] then .error msgNoToken
  else
    let body := post (simSetPayload settingName enabled (token.getD []))
    if (trim body).map upperChar ≠ okMarker then .error msgSetFailed
    else .ok msgSetOk

/-! ## Claim C6 -/

/-- A portal whose POST response body is the lowercase `"ok"`. -/
def postLowerOk : List (List Char × List Char) → List Char := fun _ => "ok".toList

/-- C6 counterexample: with the response body `"ok"` — which differs from
the literal marker `"OK"` — `set_sim_setting` does not raise but returns
the success message, because the source compares
`response.text.strip().upper()` with `"OK"`. -/
theorem c6_counterexample :
    postLowerOk (simSetPayload ("roaming_barred".toList) true ("tok".toList)) ≠ okMarker ∧
      setSimSetting (some ("tok".toList)) postLowerOk ("roaming_barred".toList) true =
        .ok msgSetOk := by
  exact ⟨by decide, by rfl⟩

/-- C6 amended: when the token query yields nothing or an empty token the
call raises, independently of the portal's POST behaviour (the POST is
never consulted); otherwise it raises exactly when the response body,
stripped of surrounding whitespace and uppercased, differs from `"OK"`,
and on that marker it returns the success message. -/
theorem c6_set_sim_setting (token : Option (List Char))
    (post post2 : List (List Char × List Char) → List Char)
    (name : List Char) (enabled : Bool) :
    (token.getD [] = [] →
      setSimSetting token post name enabled = .error msgNoToken ∧
        setSimSetting token post name enabled = setSimSetting token post2 name enabled) ∧
      (∀ tok, token = some tok → tok ≠ [] →
        ((trim (post (simSetPayload name enabled tok))).map upperChar ≠ okMarker →
          setSimSetting token post name enabled = .error msgSetFailed) ∧
        ((trim (post (simSetPayload name enabled tok))).map upperChar = okMarker →
          setSimSetting token post name enabled = .ok msgSetOk)) := by
  constructor
  · intro h
    exact ⟨by simp [setSimSetting, h], by simp [setSimSetting, h]⟩
  · rintro tok rfl hne
    constructor
    · intro hbody
      simp [setSimSetting, hne, hbody]
    · intro hbody
      simp [setSimSetting, hne, hbody]

/-- C6 witness: the amended theorem applied at a missing token and the
lowercase-`"ok"` portal. -/
theorem c6_set_sim_setting_witness :
    ((none : Option (List Char)).getD [] = [] →
      setSimSetting none postLowerOk ("roaming_barred".toList) true = .error msgNoToken ∧
        setSimSetting none postLowerOk ("roaming_barred".toList) true =
          setSimSetting none (fun _ => []) ("roaming_barred".toList) true) ∧
      (∀ tok, (none : Option (List Char)) = some tok → tok ≠ [] →
        ((trim (postLowerOk (simSetPayload ("roaming_barred".toList) true tok))).map
            upperChar ≠ okMarker →
          setSimSetting none postLowerOk ("roaming_barred".toList) true =
            .error msgSetFailed) ∧
        ((trim (postLowerOk (simSetPayload ("roaming_barred".toList) true tok))).map
            upperChar = okMarker →
          setSimSetting none postLowerOk ("roaming_barred".toList) true = .ok msgSetOk)) :=
  c6_set_sim_setting none postLowerOk (fun _ => []) ("roaming_barred".toList) true

/-! ## `SimSettings` (models.py lines 65-79) and
`KontomanagerClient.get_sim_settings` (client.py lines 423-441)

```
if api_response.get("status") != "OK":
    raise KontomanagerClientError(...)
settings_data = {}
for item in api_response.get("data", []):
    key = item.get("key", "").replace('-', '_')
    if key in SimSettings.model_fields:
        settings_data[key] = item.get("value", False)
return SimSettings(**settings_data)
```
-/

structure SimSettings where
  roaming_barred : Option Bool := none
  non_eu_roaming_barred : Option Bool := none
  roaming_sms_disable : Option Bool := none
  int_voice_barred : Option Bool := none
  international_sms_disable : Option Bool := none
  mpty_barred : Option Bool := none
  premium_barred : Option Bool := none
  data_barred : Option Bool := none
  data_roaming_barred : Option Bool := none
  non_eu_data_roaming_barred : Option Bool := none
deriving DecidableEq

/-- The field names of `SimSettings` (`SimSettings.model_fields`). -/
def simFieldNames : List (List Char) :=
  ["roaming_barred".toList, "non_eu_roaming_barred".toList,
   "roaming_sms_disable".toList, "int_voice_barred".toList,
   "international_sms_disable".toList, "mpty_barred".toList,
   "premium_barred".toList, "data_barred".toList,
   "data_roaming_barred".toList, "non_eu_data_roaming_barred".toList]

/-- One key/value item of the JSON `data` list; `value` is a JSON boolean
when present. -/
structure SimDataItem where
  key : Option (List Char)
  value : Option Bool
deriving DecidableEq

/-- The kebab-case to snake-case translation `key.replace('-', '_')`. -/
def translateKey (k : List Char) : List Char :=
  k.map (fun c => if c = '-' then '_' else c)

/-- Writing one recognized key into the settings record
(`settings_data[key] = ...` followed by `SimSettings(**settings_data)`:
a later duplicate key overwrites an earlier one, which the fold below
reproduces). -/
def setSimField (s : SimSettings) (k : List Char) (v : Bool) : SimSettings :=
  if k = "roaming_barred".toList then { s with roaming_barred := some v }
  else if k = "non_eu_roaming_barred".toList then { s with non_eu_roaming_barred := some v }
  else if k = "roaming_sms_disable".toList then { s with roaming_sms_disable := some v }
  else if k = "int_voice_barred".toList then { s with int_voice_barred := some v }
  else if k = "international_sms_disable".toList then
    { s with international_sms_disable := some v }
  else if k = "mpty_barred".toList then { s with mpty_barred := some v }
  else if k = "premium_barred".toList then { s with premium_barred := some v }
  else if k = "data_barred".toList then { s with data_barred := some v }
  else if k = "data_roaming_barred".toList then { s with data_roaming_barred := some v }
  else if k = "non_eu_data_roaming_barred".toList then
    { s with non_eu_data_roaming_barred := some v }
  else s

/-- The loop body of `get_sim_settings` for one item. -/
def simStep (s : SimSettings) (item : SimDataItem) : SimSettings :=
  let k := translateKey ((item.key).getD [])
  if k ∈ simFieldNames then setSimField s k ((item.value).getD false) else s

/-- The JSON payload of `einstellungen_sim_getdata.php`:  top-level
`status` field (absent is `None`, hence unequal to `"OK"`) and `data`
list. -/
structure SimApiResponse where
  status : Option (List Char)
  data : List SimDataItem

def msgSimApiError : List Char := "SIM settings API returned an error".toList

def getSimSettings (r : SimApiResponse) : Except (List Char) SimSettings :=
  if r.status ≠ some okMarker then .error msgSimApiError
  else .ok (r.data.foldl simStep {})

/-! ## Claim C8 -/

/-- C8: `get_sim_settings` raises whenever the top-level status is not
`"OK"`; a key that (after `-` to `_` translation) names no `SimSettings`
field leaves the accumulated settings unchanged; and the payload
with status `"OK"` and the single item `roaming-barred = true` yields the
settings record whose only set field is `roaming_barred = some true`. -/
theorem c8_get_sim_settings (r : SimApiResponse) (s : SimSettings) (item : SimDataItem)
    (hbad : r.status ≠ some okMarker)
    (hkey : translateKey ((item.key).getD []) ∉ simFieldNames) :
    getSimSettings r = .error msgSimApiError ∧
      simStep s item = s ∧
      getSimSettings ⟨some okMarker, [⟨some ("roaming-barred".toList), some true⟩]⟩ =
        .ok { roaming_barred := some true } := by
  exact ⟨by simp [getSimSettings, hbad], by simp [simStep, hkey], by rfl⟩

/-- C8 witness: the theorem applied at a status-less response and an
unrecognized key. -/
theorem c8_get_sim_settings_witness :
    getSimSettings ⟨none, []⟩ = .error msgSimApiError ∧
      simStep {} ⟨some ("bogus-key".toList), some true⟩ = {} ∧
      getSimSettings ⟨some okMarker, [⟨some ("roaming-barred".toList), some true⟩]⟩ =
        .ok { roaming_barred := some true } :=
  c8_get_sim_settings ⟨none, []⟩ {} ⟨some ("bogus-key".toList), some true⟩
    (by decide) (by decide)

/-! ## `BillSummary` (models.py lines 45-53) and
`KontomanagerClient.list_bills` (client.py lines 300-339)

```
for row in sel.xpath('//ul[@class="list-group mt-3"]'):
    date_raw = row.xpath("li[1]/div/div[2]/text()").get("").strip()
    bill_date = datetime.strptime(date_raw, "%d.%m.%Y").date() if date_raw else date.today()
    bill_pdf_url = row.xpath("li[4]/div/div/a/@href").get()
    egn_pdf_url = row.xpath("li[5]/div/div/a/@href").get()
    if not bill_pdf_url:
        logger.warning(...); continue
    bill_item = BillSummary(date=bill_date, amount=self._parse_number(...),
        bill_number=..., bill_pdf_url=urljoin(self.settings.base_url, bill_pdf_url),
        egn_pdf_url=urljoin(...) if egn_pdf_url else None, has_egn=bool(egn_pdf_url))
    bills.append(bill_item)
```

The whole loop runs inside a `try` whose `except Exception` re-raises as
the client error: an unparseable non-empty date cell raised by `strptime`
aborts the whole listing.  `urljoin` abstracts
`urljoin(self.settings.base_url, ·)`, `today` is `date.today()`. -/

structure BillRow where
  dateText : List Char
  amountText : List Char
  billNumberText : List Char
  billPdfUrl : Option (List Char)
  egnPdfUrl : Option (List Char)

structure BillSummary where
  bill_number : List Char
  date : PyDate
  amount : ℚ
  currency : List Char := "EUR".toList
  has_egn : Bool
  bill_pdf_url : List Char
  egn_pdf_url : Option (List Char) := none
deriving DecidableEq

def msgBadDate : List Char := "time data does not match the expected format".toList

/-- One row of `list_bills`: `.ok none` is the skip-with-warning branch,
`.error` the `ValueError` of `strptime` (re-raised at call level). -/
def parseBillRow (urljoin : List Char → List Char) (today : PyDate) (row : BillRow) :
    Except (List Char) (Option BillSummary) :=
  let dateRaw := trim row.dateText
  match (if dateRaw = [] then some today else parseDateDMY dateRaw) with
  | none => .error msgBadDate
  | some billDate =>
    if (row.billPdfUrl).getD [] = [] then .ok none
    else
      .ok (some { bill_number := trim row.billNumberText,
                  date := billDate,
                  amount := parseNumber row.amountText 0,
                  has_egn := decide ((row.egnPdfUrl).getD [] ≠ []),
                  bill_pdf_url := urljoin ((row.billPdfUrl).getD []),
                  egn_pdf_url := if (row.egnPdfUrl).getD [] = [] then none
                                 else some (urljoin ((row.egnPdfUrl).getD [])) })

/-- The row loop of `list_bills`: rows in order, skipped rows contribute
nothing, a raising row aborts the whole listing. -/
def listBillRows (urljoin : List Char → List Char) (today : PyDate) :
    List BillRow → Except (List Char) (List BillSummary)
  | [] => .ok []
  | row :: rest =>
    match parseBillRow urljoin today row with
    | .error e => .error e
    | .ok none => listBillRows urljoin today rest
    | .ok (some b) =>
      match listBillRows urljoin today rest with
      | .error e => .error e
      | .ok bs => .ok (b :: bs)

/-! ## Claim C7 -/

theorem parseBillRow_ok_some (urljoin : List Char → List Char) (today : PyDate)
    (row : BillRow) (b : BillSummary)
    (h : parseBillRow urljoin today row = .ok (some b)) :
    (row.billPdfUrl).getD [] ≠ [] ∧
      (row.egnPdfUrl = none → b.has_egn = false ∧ b.egn_pdf_url = none) := by
  unfold parseBillRow at h
  simp only [] at h
  rcases hd : (if trim row.dateText = [] then some today
      else parseDateDMY (trim row.dateText)) with _ | billDate
  · rw [hd] at h
    simp at h
  · rw [hd] at h
    by_cases hurl : (row.billPdfUrl).getD [] = []
    · simp [hurl] at h
    · refine ⟨hurl, ?_⟩
      simp only [hurl, if_false, Option.some.injEq, Except.ok.injEq] at h
      intro hegn
      subst h
      simp [hegn]

theorem listBillRows_mem (urljoin : List Char → List Char) (today : PyDate) :
    ∀ rows bs, listBillRows urljoin today rows = .ok bs →
      ∀ b ∈ bs, ∃ row ∈ rows, parseBillRow urljoin today row = .ok (some b) := by
  intro rows
  induction rows with
  | nil =>
    intro bs h b hb
    unfold listBillRows at h
    simp only [Except.ok.injEq] at h
    subst h
    simp at hb
  | cons row rest ih =>
    intro bs h b hb
    unfold listBillRows at h
    rcases hrow : parseBillRow urljoin today row with e | ob
    · rw [hrow] at h
      simp at h
    · rw [hrow] at h
      rcases ob with _ | b0
      · obtain ⟨row2, hm, hp⟩ := ih bs h b hb
        exact ⟨row2, by simp [hm], hp⟩
      · rcases hrest : listBillRows urljoin today rest with e | bs0
        · rw [hrest] at h
          simp at h
        · rw [hrest] at h
          simp only [Except.ok.injEq] at h
          subst h
          rcases List.mem_cons.mp hb with hb | hb
          · exact ⟨row, by simp, by rw [hb]; exact hrow⟩
          · obtain ⟨row2, hm, hp⟩ := ih bs0 hrest b hb
            exact ⟨row2, by simp [hm], hp⟩

/-- C7 amended: a row without a main PDF link whose date cell is empty or
parseable is excluded from the listing with only a warning (`.ok none`);
a non-empty unparseable date cell instead aborts the whole call with the
client error, whatever the links; every bill in a returned listing stems
from a row with a non-empty main link; and a returned bill whose row had
no itemized-record link has `has_egn = false` and `egn_pdf_url = none`. -/
theorem c7_bill_rows (urljoin : List Char → List Char) (today : PyDate)
    (rows : List BillRow) (bs : List BillSummary) :
    (∀ row : BillRow, (row.billPdfUrl).getD [] = [] →
      (trim row.dateText = [] ∨ (∃ d, parseDateDMY (trim row.dateText) = some d)) →
      parseBillRow urljoin today row = .ok none) ∧
      (listBillRows urljoin today rows = .ok bs →
        ∀ b ∈ bs, ∃ row ∈ rows, (row.billPdfUrl).getD [] ≠ [] ∧
          parseBillRow urljoin today row = .ok (some b)) ∧
      (∀ (row : BillRow) (b : BillSummary),
        parseBillRow urljoin today row = .ok (some b) → row.egnPdfUrl = none →
        b.has_egn = false ∧ b.egn_pdf_url = none) := by
  refine ⟨?_, ?_, ?_⟩
  · intro row hurl hdate
    rcases hdate with hdate | ⟨d, hdate⟩
    · simp [parseBillRow, hdate, hurl]
    · by_cases hraw : trim row.dateText = []
      · simp [parseBillRow, hraw, hurl]
      · simp [parseBillRow, hraw, hdate, hurl]
  · intro hok b hb
    obtain ⟨row, hm, hp⟩ := listBillRows_mem urljoin today rows bs hok b hb
    exact ⟨row, hm, (parseBillRow_ok_some urljoin today row b hp).1, hp⟩
  · intro row b hp hegn
    exact (parseBillRow_ok_some urljoin today row b hp).2 hegn

/-- A concrete bill row with an unparseable non-empty date cell and no
main PDF link. -/
def badDateRow : BillRow := ⟨"zz".toList, [], [], none, none⟩

/-- C7 counterexample: the row without a main PDF link is not skipped with
a warning — its unparseable date cell makes the whole listing call raise
the client error. -/
theorem c7_counterexample :
    (badDateRow.billPdfUrl).getD [] = [] ∧
      listBillRows (fun s => s) ⟨2024, 1, 1⟩ [badDateRow] = .error msgBadDate := by
  exact ⟨rfl, by rfl⟩

/-- A concrete well-formed bill row with a main link and no itemized link. -/
def goodBillRow : BillRow :=
  ⟨[], "5".toList, "R1".toList, some ("a.pdf".toList), none⟩

/-- The bill `goodBillRow` parses to (under the identity `urljoin` and
`today = 2024-01-02`). -/
def goodBill : BillSummary :=
  { bill_number := trim ("R1".toList), date := ⟨2024, 1, 2⟩,
    amount := parseNumber ("5".toList) 0, has_egn := false,
    bill_pdf_url := "a.pdf".toList, egn_pdf_url := none }

/-- C7 witness: the amended theorem applied at a one-row listing. -/
theorem c7_bill_rows_witness :
    (∀ row : BillRow, (row.billPdfUrl).getD [] = [] →
      (trim row.dateText = [] ∨ (∃ d, parseDateDMY (trim row.dateText) = some d)) →
      parseBillRow (fun s => s) ⟨2024, 1, 2⟩ row = .ok none) ∧
      (listBillRows (fun s => s) ⟨2024, 1, 2⟩ [goodBillRow] = .ok [goodBill] →
        ∀ b ∈ [goodBill], ∃ row ∈ [goodBillRow], (row.billPdfUrl).getD [] ≠ [] ∧
          parseBillRow (fun s => s) ⟨2024, 1, 2⟩ row = .ok (some b)) ∧
      (∀ (row : BillRow) (b : BillSummary),
        parseBillRow (fun s => s) ⟨2024, 1, 2⟩ row = .ok (some b) → row.egnPdfUrl = none →
        b.has_egn = false ∧ b.egn_pdf_url = none) :=
  c7_bill_rows (fun s => s) ⟨2024, 1, 2⟩ [goodBillRow] [goodBill]

/-! ## Claim C10 -/

/-- C10: a bill row whose date cell is empty (or absent, which the selector
default renders as empty) is not skipped for that reason: with a non-empty
main PDF link it is returned, and its date is the current day `today`. -/
theorem c10_empty_date (urljoin : List Char → List Char) (today : PyDate)
    (row : BillRow) (u : List Char)
    (hdate : trim row.dateText = []) (hurl : row.billPdfUrl = some u) (hne : u ≠ []) :
    ∃ b, parseBillRow urljoin today row = .ok (some b) ∧ b.date = today := by
  refine ⟨{ bill_number := trim row.billNumberText, date := today,
            amount := parseNumber row.amountText 0,
            has_egn := decide ((row.egnPdfUrl).getD [] ≠ []),
            bill_pdf_url := urljoin ((row.billPdfUrl).getD []),
            egn_pdf_url := if (row.egnPdfUrl).getD [] = [] then none
                           else some (urljoin ((row.egnPdfUrl).getD [])) }, ?_, rfl⟩
  simp [parseBillRow, hdate, hurl, hne]

/-- C10 witness: the theorem applied at `goodBillRow`. -/
theorem c10_empty_date_witness :
    ∃ b, parseBillRow (fun s => s) ⟨2024, 1, 2⟩ goodBillRow = .ok (some b) ∧
      b.date = ⟨2024, 1, 2⟩ :=
  c10_empty_date (fun s => s) ⟨2024, 1, 2⟩ goodBillRow ("a.pdf".toList)
    (by decide) rfl (by decide)

/-! ## Call forwarding (models.py lines 82-94, client.py lines 468-544)

`get_call_forwarding_settings` reads, for each of the four fixed condition
codes, the selected target of the `{rid}_akt` selector (falling back to the
select element's own `value` attribute with default `'d'`), the
`{rid}_rn` input when the target is `'a'`, and — for `nann` only — the
selected `nann_sek` delay (fallback default `'25'`, kept only when the
string is non-empty and all digits).  The page-wide flags come from
`btel_akt` (`'a'` is enabled) and `voicemail_play_cli_disable` (`'d'` is
true).  `ForwardingPage` holds the results of those selector queries. -/

structure CallForwardingRule where
  condition : List Char
  target : List Char
  target_number : Option (List Char) := none
  delay_seconds : Option Int := none
deriving DecidableEq

structure CallForwardingSettings where
  rules : List CallForwardingRule
  editable_on_phone : Bool
  voicemail_play_cli_disable : Bool
deriving DecidableEq

def ridAlle : List Char := "alle".toList
def ridNann : List Char := "nann".toList
def ridWtel : List Char := "wtel".toList
def ridNerr : List Char := "nerr".toList

/-- client.py line 477: `rule_ids = ["alle", "nann", "wtel", "nerr"]`. -/
def ruleIds : List (List Char) := [ridAlle, ridNann, ridWtel, ridNerr]

def valA : List Char := ['a']
def valD : List Char := ['d']

structure ForwardingPage where
  selectedTarget : List Char → Option (List Char)
  selectAttr : List Char → Option (List Char)
  inputRn : List Char → Option (List Char)
  nannSekSelected : Option (List Char)
  nannSekAttr : Option (List Char)
  btelSelected : Option (List Char)
  voicemailSelected : Option (List Char)

/-- client.py lines 478-496: one parsed rule. -/
def parseForwardingRule (p : ForwardingPage) (rid : List Char) : CallForwardingRule :=
  let t0 := (p.selectedTarget rid).getD []
  let target := if t0 = [] then (p.selectAttr rid).getD valD else t0
  let targetNumber := if target = valA then p.inputRn rid else none
  let delay :=
    if rid = ridNann then
      let d0 := (p.nannSekSelected).getD []
      let dstr := if d0 = [] then (p.nannSekAttr).getD ("25".toList) else d0
      if dstr ≠ [] ∧ dstr.all Char.isDigit then some ((digitsToNat dstr : ℤ)) else none
    else none
  { condition := rid, target := target, target_number := targetNumber,
    delay_seconds := delay }

/-- client.py lines 498-505. -/
def getCallForwardingSettings (p : ForwardingPage) : CallForwardingSettings :=
  { rules := ruleIds.map (parseForwardingRule p),
    editable_on_phone := decide (((p.btelSelected).getD valD) = valA),
    voicemail_play_cli_disable := decide (((p.voicemailSelected).getD valD) = valD) }

/-! ## The form payload of `set_call_forwarding_rule`
(client.py lines 523-536)

```
payload: Dict[str, str] = {"dosubmit": "1", "token": token}
for rule in current_settings.rules:
    rule_to_apply = rule_to_set if rule.condition == rule_to_set.condition else rule
    payload[f"(cond)_akt"] = rule_to_apply.target
    if rule_to_apply.target_number:
        payload[f"(cond)_rn"] = rule_to_apply.target_number
    if rule_to_apply.condition == 'nann' and rule_to_apply.delay_seconds is not None:
        payload["nann_sek"] = str(rule_to_apply.delay_seconds)
payload["btel_akt"] = 'a' if current_settings.editable_on_phone else 'd'
payload["voicemail_play_cli_disable"] = 'a' if current_settings.voicemail_play_cli_disable else 'd'
```

A Python dict is modelled as an association list with unique keys:
assignment overwrites in place or appends (`dictSet`), lookup is
`dlookup`. -/

def keyAkt (c : List Char) : List Char := c ++ "_akt".toList
def keyRn (c : List Char) : List Char := c ++ "_rn".toList
def keyNannSek : List Char := "nann_sek".toList
def keyDosubmit : List Char := "dosubmit".toList
def keyToken : List Char := "token".toList
def keyBtelAkt : List Char := "btel_akt".toList
def keyVoicemail : List Char := "voicemail_play_cli_disable".toList

def dictSet : List (List Char × List Char) → List Char → List Char →
    List (List Char × List Char)
  | [], k, v => [(k, v)]
  | q :: qs, k, v => if q.1 = k then (k, v) :: qs else q :: dictSet qs k v

def dlookup (k : List Char) : List (List Char × List Char) → Option (List Char)
  | [] => none
  | q :: qs => if q.1 = k then some q.2 else dlookup k qs

/-- `payload[f"(cond)_akt"] = rule_to_apply.target`. -/
def stepAkt (d : List (List Char × List Char)) (ra : CallForwardingRule) :
    List (List Char × List Char) :=
  dictSet d (keyAkt ra.condition) ra.target

/-- `if rule_to_apply.target_number: payload[f"(cond)_rn"] = ...`
(a `None` or empty target number is falsy and emits nothing). -/
def stepRn (d : List (List Char × List Char)) (ra : CallForwardingRule) :
    List (List Char × List Char) :=
  match ra.target_number with
  | some rn => if rn = [] then d else dictSet d (keyRn ra.condition) rn
  | none => d

/-- `if rule_to_apply.condition == 'nann' and ... delay_seconds is not None:
payload["nann_sek"] = str(...)`. -/
def stepSek (d : List (List Char × List Char)) (ra : CallForwardingRule) :
    List (List Char × List Char) :=
  if ra.condition = ridNann then
    match ra.delay_seconds with
    | some ds => dictSet d keyNannSek ((toString ds).toList)
    | none => d
  else d

/-- One iteration of the payload loop. -/
def payloadStep (ruleToSet : CallForwardingRule) (d : List (List Char × List Char))
    (rule : CallForwardingRule) : List (List Char × List Char) :=
  let ra := if rule.condition = ruleToSet.condition then ruleToSet else rule
  stepSek (stepRn (stepAkt d ra) ra) ra

/-- The complete form payload built by `set_call_forwarding_rule`. -/
def buildPayload (current : CallForwardingSettings) (ruleToSet : CallForwardingRule)
    (token : List Char) : List (List Char × List Char) :=
  let d0 := dictSet (dictSet [] keyDosubmit ("1".toList)) keyToken token
  let d1 := current.rules.foldl (payloadStep ruleToSet) d0
  let d2 := dictSet d1 keyBtelAkt (if current.editable_on_phone then valA else valD)
  dictSet d2 keyVoicemail (if current.voicemail_play_cli_disable then valA else valD)

/-- The payload `set_call_forwarding_rule` submits, as a function of the
page, the requested rule and the fresh token. -/
def fwPayload (p : ForwardingPage) (rset : CallForwardingRule) (token : List Char) :
    List (List Char × List Char) :=
  buildPayload (getCallForwardingSettings p) rset token

/-- How the `_rn` field of one condition appears in the payload: present
exactly when the effective rule carries a non-empty target number. -/
def rnEmit : Option (List Char) → Option (List Char)
  | some rn => if rn = [] then none else some rn
  | none => none

/-! ## Claim C1 -/

theorem dlookup_dictSet_self (d : List (List Char × List Char)) (k v : List Char) :
    dlookup k (dictSet d k v) = some v := by
  induction d with
  | nil => simp [dictSet, dlookup]
  | cons q qs ih =>
    by_cases h : q.1 = k
    · simp [dictSet, dlookup, h]
    · simp [dictSet, dlookup, h, ih]

theorem dlookup_dictSet_ne (d : List (List Char × List Char)) (k v k2 : List Char)
    (h : k2 ≠ k) : dlookup k2 (dictSet d k v) = dlookup k2 d := by
  induction d with
  | nil => simp [dictSet, dlookup, Ne.symm h]
  | cons q qs ih =>
    by_cases hq : q.1 = k
    · have hq2 : ¬ (q.1 = k2) := by rw [hq]; exact Ne.symm h
      simp [dictSet, dlookup, hq, hq2, Ne.symm h, h]
    · by_cases hq2 : q.1 = k2
      · simp [dictSet, dlookup, hq, hq2, h]
      · simp [dictSet, dlookup, hq, hq2, ih]

theorem raCondEq (rule ruleToSet : CallForwardingRule) :
    (if rule.condition = ruleToSet.condition then ruleToSet else rule).condition =
      rule.condition := by
  split
  · rename_i h
    exact h.symm
  · rfl

theorem dlookup_stepAkt_ne (d : List (List Char × List Char))
    (ra : CallForwardingRule) (k : List Char) (h : k ≠ keyAkt ra.condition) :
    dlookup k (stepAkt d ra) = dlookup k d :=
  dlookup_dictSet_ne d _ _ k h

theorem dlookup_stepRn_ne (d : List (List Char × List Char))
    (ra : CallForwardingRule) (k : List Char) (h : k ≠ keyRn ra.condition) :
    dlookup k (stepRn d ra) = dlookup k d := by
  unfold stepRn
  rcases ra.target_number with _ | rn
  · rfl
  · by_cases hrn : rn = []
    · simp [hrn]
    · simp [hrn, dlookup_dictSet_ne d _ _ k h]

theorem dlookup_stepSek_ne (d : List (List Char × List Char))
    (ra : CallForwardingRule) (k : List Char)
    (h : ra.condition = ridNann → k ≠ keyNannSek) :
    dlookup k (stepSek d ra) = dlookup k d := by
  unfold stepSek
  by_cases hc : ra.condition = ridNann
  · rcases ra.delay_seconds with _ | ds
    · simp [hc]
    · simp [hc, dlookup_dictSet_ne d _ _ k (h hc)]
  · simp [hc]

theorem dlookup_payloadStep_ne (ruleToSet rule : CallForwardingRule)
    (d : List (List Char × List Char)) (k : List Char)
    (h1 : k ≠ keyAkt rule.condition) (h2 : k ≠ keyRn rule.condition)
    (h3 : rule.condition = ridNann → k ≠ keyNannSek) :
    dlookup k (payloadStep ruleToSet d rule) = dlookup k d := by
  unfold payloadStep
  set ra := if rule.condition = ruleToSet.condition then ruleToSet else rule with hdef
  have hra : ra.condition = rule.condition := raCondEq rule ruleToSet
  rw [dlookup_stepSek_ne _ _ _ (fun hc => h3 (hra.symm.trans hc)),
    dlookup_stepRn_ne _ _ _ (by rw [hra]; exact h2),
    dlookup_stepAkt_ne _ _ _ (by rw [hra]; exact h1)]

theorem keyAkt_ne_keyRn (c : List Char) : keyAkt c ≠ keyRn c := by
  unfold keyAkt keyRn
  intro h
  have := List.append_cancel_left h
  simp at this

theorem dlookup_payloadStep_akt (ruleToSet rule : CallForwardingRule)
    (d : List (List Char × List Char)) :
    dlookup (keyAkt rule.condition) (payloadStep ruleToSet d rule) =
      some (if rule.condition = ruleToSet.condition then ruleToSet else rule).target := by
  unfold payloadStep
  set ra := if rule.condition = ruleToSet.condition then ruleToSet else rule with hdef
  have hra : ra.condition = rule.condition := raCondEq rule ruleToSet
  rw [← hra]
  rw [dlookup_stepSek_ne _ _ _ (fun hc => by rw [hc]; decide),
    dlookup_stepRn_ne _ _ _ (keyAkt_ne_keyRn _)]
  exact dlookup_dictSet_self d _ _

theorem keyRn_ne_keyAkt (c : List Char) : keyRn c ≠ keyAkt c :=
  Ne.symm (keyAkt_ne_keyRn c)

theorem dlookup_payloadStep_rn (ruleToSet rule : CallForwardingRule)
    (d : List (List Char × List Char)) :
    dlookup (keyRn rule.condition) (payloadStep ruleToSet d rule) =
      (match (if rule.condition = ruleToSet.condition then ruleToSet
          else rule).target_number with
        | some rn => if rn = [] then dlookup (keyRn rule.condition) d else some rn
        | none => dlookup (keyRn rule.condition) d) := by
  unfold payloadStep
  set ra := if rule.condition = ruleToSet.condition then ruleToSet else rule with hdef
  have hra : ra.condition = rule.condition := raCondEq rule ruleToSet
  rw [← hra]
  rw [dlookup_stepSek_ne _ _ _ (fun hc => by rw [hc]; decide)]
  unfold stepRn
  rcases ra.target_number with _ | rn
  · exact dlookup_stepAkt_ne _ _ _ (keyRn_ne_keyAkt _)
  · by_cases hrn : rn = []
    · simp only [hrn, if_true]
      exact dlookup_stepAkt_ne _ _ _ (keyRn_ne_keyAkt _)
    · simp only [hrn, if_false]
      exact dlookup_dictSet_self _ _ _

theorem dlookup_payloadStep_sek (ruleToSet rule : CallForwardingRule)
    (d : List (List Char × List Char)) (hn : rule.condition = ridNann) :
    dlookup keyNannSek (payloadStep ruleToSet d rule) =
      (match (if rule.condition = ruleToSet.condition then ruleToSet
          else rule).delay_seconds with
        | some ds => some ((toString ds).toList)
        | none => dlookup keyNannSek d) := by
  unfold payloadStep
  simp only []
  set ra := if rule.condition = ruleToSet.condition then ruleToSet else rule with hdef
  have hra : ra.condition = rule.condition := raCondEq rule ruleToSet
  have hran : ra.condition = ridNann := hra.trans hn
  unfold stepSek
  rw [hran]
  simp only [if_true]
  rcases ra.delay_seconds with _ | ds
  · simp only []
    rw [dlookup_stepRn_ne _ _ _ (by rw [hran]; decide),
      dlookup_stepAkt_ne _ _ _ (by rw [hran]; decide)]
  · simp only []
    exact dlookup_dictSet_self _ _ _

theorem dlookup_fold_ne (rset : CallForwardingRule) (k : List Char) :
    ∀ (rs : List CallForwardingRule) (d : List (List Char × List Char)),
      (∀ r2 ∈ rs, k ≠ keyAkt r2.condition ∧ k ≠ keyRn r2.condition ∧
        (r2.condition = ridNann → k ≠ keyNannSek)) →
      dlookup k (rs.foldl (payloadStep rset) d) = dlookup k d := by
  intro rs
  induction rs with
  | nil => intro d h; rfl
  | cons r2 rs ih =>
    intro d h
    have h2 := h r2 (by simp)
    rw [List.foldl_cons, ih _ (fun x hx => h x (by simp [hx])),
      dlookup_payloadStep_ne _ _ _ _ h2.1 h2.2.1 h2.2.2]

theorem rnEmit_match (fb : Option (List Char)) (hfb : fb = none) (x : Option (List Char)) :
    (match x with
      | some rn => if rn = [] then fb else some rn
      | none => fb) = rnEmit x := by
  subst hfb
  rcases x with _ | rn <;> rfl

theorem delayMap_match (fb : Option (List Char)) (hfb : fb = none) (x : Option Int) :
    (match x with
      | some ds => some ((toString ds).toList)
      | none => fb) = x.map (fun ds => (toString ds).toList) := by
  subst hfb
  rcases x with _ | ds <;> rfl

theorem condition_parseForwardingRule (p : ForwardingPage) (rid : List Char) :
    (parseForwardingRule p rid).condition = rid := rfl

/-- C1: for every call-forwarding state parsed from the portal page and
every caller-supplied rule, the submitted payload re-emits, for every
condition other than the requested one, exactly the parsed rule's target,
its target number (present exactly when non-empty), and — for the
no-answer condition — its delay; both page-wide flags are re-emitted from
their parsed values; and only the rule whose condition matches the request
is replaced by the caller-supplied rule. -/
theorem c1_call_forwarding_frame (p : ForwardingPage) (rset : CallForwardingRule)
    (token : List Char) :
    (∀ r ∈ (getCallForwardingSettings p).rules,
      (r.condition ≠ rset.condition →
        dlookup (keyAkt r.condition) (fwPayload p rset token) = some r.target ∧
          dlookup (keyRn r.condition) (fwPayload p rset token) = rnEmit r.target_number ∧
          (r.condition = ridNann →
            dlookup keyNannSek (fwPayload p rset token) =
              r.delay_seconds.map (fun ds => (toString ds).toList))) ∧
        (r.condition = rset.condition →
          dlookup (keyAkt r.condition) (fwPayload p rset token) = some rset.target ∧
            dlookup (keyRn r.condition) (fwPayload p rset token) =
              rnEmit rset.target_number ∧
            (r.condition = ridNann →
              dlookup keyNannSek (fwPayload p rset token) =
                rset.delay_seconds.map (fun ds => (toString ds).toList)))) ∧
      dlookup keyBtelAkt (fwPayload p rset token) =
        some (if (getCallForwardingSettings p).editable_on_phone then valA else valD) ∧
      dlookup keyVoicemail (fwPayload p rset token) =
        some (if (getCallForwardingSettings p).voicemail_play_cli_disable then valA
          else valD) := by
  have hpay : fwPayload p rset token =
      dictSet (dictSet (List.foldl (payloadStep rset)
          (dictSet (dictSet [] keyDosubmit ("1".toList)) keyToken token)
          [parseForwardingRule p ridAlle, parseForwardingRule p ridNann,
           parseForwardingRule p ridWtel, parseForwardingRule p ridNerr])
        keyBtelAkt (if (getCallForwardingSettings p).editable_on_phone then valA else valD))
        keyVoicemail
        (if (getCallForwardingSettings p).voicemail_play_cli_disable then valA
          else valD) := rfl
  refine ⟨?_, ?_, ?_⟩
  · intro r hr
    have hr4 : r = parseForwardingRule p ridAlle ∨ r = parseForwardingRule p ridNann ∨
        r = parseForwardingRule p ridWtel ∨ r = parseForwardingRule p ridNerr := by
      simpa [getCallForwardingSettings, ruleIds] using hr
    clear hr
    rcases hr4 with rfl | rfl | rfl | rfl
    all_goals constructor
    · intro hne
      refine ⟨?_, ?_, fun hc => by
        rw [condition_parseForwardingRule] at hc
        exact absurd hc (by decide)⟩
      · rw [hpay, dlookup_dictSet_ne _ _ _ _ (by simp only [condition_parseForwardingRule]; decide),
          dlookup_dictSet_ne _ _ _ _ (by simp only [condition_parseForwardingRule]; decide),
          show List.foldl (payloadStep rset) (dictSet (dictSet [] keyDosubmit ("1".toList)) keyToken token)
          [parseForwardingRule p ridAlle, parseForwardingRule p ridNann,
           parseForwardingRule p ridWtel, parseForwardingRule p ridNerr] =
        List.foldl (payloadStep rset)
          (payloadStep rset (dictSet (dictSet [] keyDosubmit ("1".toList)) keyToken token) (parseForwardingRule p ridAlle))
          [parseForwardingRule p ridNann, parseForwardingRule p ridWtel, parseForwardingRule p ridNerr] from rfl,
          dlookup_fold_ne _ _ _ _ (by intro r2 hr2; simp only [List.mem_cons, List.not_mem_nil, or_false] at hr2; rcases hr2 with rfl | rfl | rfl <;> exact ⟨(by simp only [condition_parseForwardingRule]; decide), (by simp only [condition_parseForwardingRule]; decide), (by simp only [condition_parseForwardingRule]; decide)⟩),
          dlookup_payloadStep_akt, if_neg hne]
      · have hfbrn : dlookup (keyRn (parseForwardingRule p ridAlle).condition) (dictSet (dictSet [] keyDosubmit ("1".toList)) keyToken token) = none := rfl
        rw [hpay, dlookup_dictSet_ne _ _ _ _ (by simp only [condition_parseForwardingRule]; decide),
          dlookup_dictSet_ne _ _ _ _ (by simp only [condition_parseForwardingRule]; decide),
          show List.foldl (payloadStep rset) (dictSet (dictSet [] keyDosubmit ("1".toList)) keyToken token)
          [parseForwardingRule p ridAlle, parseForwardingRule p ridNann,
           parseForwardingRule p ridWtel, parseForwardingRule p ridNerr] =
        List.foldl (payloadStep rset)
          (payloadStep rset (dictSet (dictSet [] keyDosubmit ("1".toList)) keyToken token) (parseForwardingRule p ridAlle))
          [parseForwardingRule p ridNann, parseForwardingRule p ridWtel, parseForwardingRule p ridNerr] from rfl,
          dlookup_fold_ne _ _ _ _ (by intro r2 hr2; simp only [List.mem_cons, List.not_mem_nil, or_false] at hr2; rcases hr2 with rfl | rfl | rfl <;> exact ⟨(by simp only [condition_parseForwardingRule]; decide), (by simp only [condition_parseForwardingRule]; decide), (by simp only [condition_parseForwardingRule]; decide)⟩),
          dlookup_payloadStep_rn, if_neg hne, hfbrn, rnEmit_match _ rfl]
    · intro heq
      refine ⟨?_, ?_, fun hc => by
        rw [condition_parseForwardingRule] at hc
        exact absurd hc (by decide)⟩
      · rw [hpay, dlookup_dictSet_ne _ _ _ _ (by simp only [condition_parseForwardingRule]; decide),
          dlookup_dictSet_ne _ _ _ _ (by simp only [condition_parseForwardingRule]; decide),
          show List.foldl (payloadStep rset) (dictSet (dictSet [] keyDosubmit ("1".toList)) keyToken token)
          [parseForwardingRule p ridAlle, parseForwardingRule p ridNann,
           parseForwardingRule p ridWtel, parseForwardingRule p ridNerr] =
        List.foldl (payloadStep rset)
          (payloadStep rset (dictSet (dictSet [] keyDosubmit ("1".toList)) keyToken token) (parseForwardingRule p ridAlle))
          [parseForwardingRule p ridNann, parseForwardingRule p ridWtel, parseForwardingRule p ridNerr] from rfl,
          dlookup_fold_ne _ _ _ _ (by intro r2 hr2; simp only [List.mem_cons, List.not_mem_nil, or_false] at hr2; rcases hr2 with rfl | rfl | rfl <;> exact ⟨(by simp only [condition_parseForwardingRule]; decide), (by simp only [condition_parseForwardingRule]; decide), (by simp only [condition_parseForwardingRule]; decide)⟩),
          dlookup_payloadStep_akt, if_pos heq]
      · have hfbrn : dlookup (keyRn (parseForwardingRule p ridAlle).condition) (dictSet (dictSet [] keyDosubmit ("1".toList)) keyToken token) = none := rfl
        rw [hpay, dlookup_dictSet_ne _ _ _ _ (by simp only [condition_parseForwardingRule]; decide),
          dlookup_dictSet_ne _ _ _ _ (by simp only [condition_parseForwardingRule]; decide),
          show List.foldl (payloadStep rset) (dictSet (dictSet [] keyDosubmit ("1".toList)) keyToken token)
          [parseForwardingRule p ridAlle, parseForwardingRule p ridNann,
           parseForwardingRule p ridWtel, parseForwardingRule p ridNerr] =
        List.foldl (payloadStep rset)
          (payloadStep rset (dictSet (dictSet [] keyDosubmit ("1".toList)) keyToken token) (parseForwardingRule p ridAlle))
          [parseForwardingRule p ridNann, parseForwardingRule p ridWtel, parseForwardingRule p ridNerr] from rfl,
          dlookup_fold_ne _ _ _ _ (by intro r2 hr2; simp only [List.mem_cons, List.not_mem_nil, or_false] at hr2; rcases hr2 with rfl | rfl | rfl <;> exact ⟨(by simp only [condition_parseForwardingRule]; decide), (by simp only [condition_parseForwardingRule]; decide), (by simp only [condition_parseForwardingRule]; decide)⟩),
          dlookup_payloadStep_rn, if_pos heq, hfbrn, rnEmit_match _ rfl]
    · intro hne
      refine ⟨?_, ?_, fun _ => ?_⟩
      · rw [hpay, dlookup_dictSet_ne _ _ _ _ (by simp only [condition_parseForwardingRule]; decide),
          dlookup_dictSet_ne _ _ _ _ (by simp only [condition_parseForwardingRule]; decide),
          show List.foldl (payloadStep rset) (dictSet (dictSet [] keyDosubmit ("1".toList)) keyToken token)
          [parseForwardingRule p ridAlle, parseForwardingRule p ridNann,
           parseForwardingRule p ridWtel, parseForwardingRule p ridNerr] =
        List.foldl (payloadStep rset)
          (payloadStep rset (payloadStep rset (dictSet (dictSet [] keyDosubmit ("1".toList)) keyToken token) (parseForwardingRule p ridAlle)) (parseForwardingRule p ridNann))
          [parseForwardingRule p ridWtel, parseForwardingRule p ridNerr] from rfl,
          dlookup_fold_ne _ _ _ _ (by intro r2 hr2; simp only [List.mem_cons, List.not_mem_nil, or_false] at hr2; rcases hr2 with rfl | rfl <;> exact ⟨(by simp only [condition_parseForwardingRule]; decide), (by simp only [condition_parseForwardingRule]; decide), (by simp only [condition_parseForwardingRule]; decide)⟩),
          dlookup_payloadStep_akt, if_neg hne]
      · have hfbrn : dlookup (keyRn (parseForwardingRule p ridNann).condition) (payloadStep rset (dictSet (dictSet [] keyDosubmit ("1".toList)) keyToken token) (parseForwardingRule p ridAlle)) = none := by
          rw [dlookup_payloadStep_ne _ _ _ _ (by simp only [condition_parseForwardingRule]; decide) (by simp only [condition_parseForwardingRule]; decide) (by simp only [condition_parseForwardingRule]; decide)]
          rfl
        rw [hpay, dlookup_dictSet_ne _ _ _ _ (by simp only [condition_parseForwardingRule]; decide),
          dlookup_dictSet_ne _ _ _ _ (by simp only [condition_parseForwardingRule]; decide),
          show List.foldl (payloadStep rset) (dictSet (dictSet [] keyDosubmit ("1".toList)) keyToken token)
          [parseForwardingRule p ridAlle, parseForwardingRule p ridNann,
           parseForwardingRule p ridWtel, parseForwardingRule p ridNerr] =
        List.foldl (payloadStep rset)
          (payloadStep rset (payloadStep rset (dictSet (dictSet [] keyDosubmit ("1".toList)) keyToken token) (parseForwardingRule p ridAlle)) (parseForwardingRule p ridNann))
          [parseForwardingRule p ridWtel, parseForwardingRule p ridNerr] from rfl,
          dlookup_fold_ne _ _ _ _ (by intro r2 hr2; simp only [List.mem_cons, List.not_mem_nil, or_false] at hr2; rcases hr2 with rfl | rfl <;> exact ⟨(by simp only [condition_parseForwardingRule]; decide), (by simp only [condition_parseForwardingRule]; decide), (by simp only [condition_parseForwardingRule]; decide)⟩),
          dlookup_payloadStep_rn, if_neg hne, hfbrn, rnEmit_match _ rfl]
      · have hfbsek : dlookup keyNannSek (payloadStep rset (dictSet (dictSet [] keyDosubmit ("1".toList)) keyToken token) (parseForwardingRule p ridAlle)) = none := by
          rw [dlookup_payloadStep_ne _ _ _ _ (by simp only [condition_parseForwardingRule]; decide) (by simp only [condition_parseForwardingRule]; decide) (by simp only [condition_parseForwardingRule]; decide)]
          rfl
        rw [hpay, dlookup_dictSet_ne _ _ _ _ (by decide),
          dlookup_dictSet_ne _ _ _ _ (by decide),
          show List.foldl (payloadStep rset) (dictSet (dictSet [] keyDosubmit ("1".toList)) keyToken token)
          [parseForwardingRule p ridAlle, parseForwardingRule p ridNann,
           parseForwardingRule p ridWtel, parseForwardingRule p ridNerr] =
        List.foldl (payloadStep rset)
          (payloadStep rset (payloadStep rset (dictSet (dictSet [] keyDosubmit ("1".toList)) keyToken token) (parseForwardingRule p ridAlle)) (parseForwardingRule p ridNann))
          [parseForwardingRule p ridWtel, parseForwardingRule p ridNerr] from rfl,
          dlookup_fold_ne _ _ _ _ (by intro r2 hr2; simp only [List.mem_cons, List.not_mem_nil, or_false] at hr2; rcases hr2 with rfl | rfl <;> exact ⟨(by simp only [condition_parseForwardingRule]; decide), (by simp only [condition_parseForwardingRule]; decide), (by simp only [condition_parseForwardingRule]; decide)⟩),
          dlookup_payloadStep_sek _ _ _ rfl, if_neg hne, hfbsek, delayMap_match _ rfl]
    · intro heq
      refine ⟨?_, ?_, fun _ => ?_⟩
      · rw [hpay, dlookup_dictSet_ne _ _ _ _ (by simp only [condition_parseForwardingRule]; decide),
          dlookup_dictSet_ne _ _ _ _ (by simp only [condition_parseForwardingRule]; decide),
          show List.foldl (payloadStep rset) (dictSet (dictSet [] keyDosubmit ("1".toList)) keyToken token)
          [parseForwardingRule p ridAlle, parseForwardingRule p ridNann,
           parseForwardingRule p ridWtel, parseForwardingRule p ridNerr] =
        List.foldl (payloadStep rset)
          (payloadStep rset (payloadStep rset (dictSet (dictSet [] keyDosubmit ("1".toList)) keyToken token) (parseForwardingRule p ridAlle)) (parseForwardingRule p ridNann))
          [parseForwardingRule p ridWtel, parseForwardingRule p ridNerr] from rfl,
          dlookup_fold_ne _ _ _ _ (by intro r2 hr2; simp only [List.mem_cons, List.not_mem_nil, or_false] at hr2; rcases hr2 with rfl | rfl <;> exact ⟨(by simp only [condition_parseForwardingRule]; decide), (by simp only [condition_parseForwardingRule]; decide), (by simp only [condition_parseForwardingRule]; decide)⟩),
          dlookup_payloadStep_akt, if_pos heq]
      · have hfbrn : dlookup (keyRn (parseForwardingRule p ridNann).condition) (payloadStep rset (dictSet (dictSet [] keyDosubmit ("1".toList)) keyToken token) (parseForwardingRule p ridAlle)) = none := by
          rw [dlookup_payloadStep_ne _ _ _ _ (by simp only [condition_parseForwardingRule]; decide) (by simp only [condition_parseForwardingRule]; decide) (by simp only [condition_parseForwardingRule]; decide)]
          rfl
        rw [hpay, dlookup_dictSet_ne _ _ _ _ (by simp only [condition_parseForwardingRule]; decide),
          dlookup_dictSet_ne _ _ _ _ (by simp only [condition_parseForwardingRule]; decide),
          show List.foldl (payloadStep rset) (dictSet (dictSet [] keyDosubmit ("1".toList)) keyToken token)
          [parseForwardingRule p ridAlle, parseForwardingRule p ridNann,
           parseForwardingRule p ridWtel, parseForwardingRule p ridNerr] =
        List.foldl (payloadStep rset)
          (payloadStep rset (payloadStep rset (dictSet (dictSet [] keyDosubmit ("1".toList)) keyToken token) (parseForwardingRule p ridAlle)) (parseForwardingRule p ridNann))
          [parseForwardingRule p ridWtel, parseForwardingRule p ridNerr] from rfl,
          dlookup_fold_ne _ _ _ _ (by intro r2 hr2; simp only [List.mem_cons, List.not_mem_nil, or_false] at hr2; rcases hr2 with rfl | rfl <;> exact ⟨(by simp only [condition_parseForwardingRule]; decide), (by simp only [condition_parseForwardingRule]; decide), (by simp only [condition_parseForwardingRule]; decide)⟩),
          dlookup_payloadStep_rn, if_pos heq, hfbrn, rnEmit_match _ rfl]
      · have hfbsek : dlookup keyNannSek (payloadStep rset (dictSet (dictSet [] keyDosubmit ("1".toList)) keyToken token) (parseForwardingRule p ridAlle)) = none := by
          rw [dlookup_payloadStep_ne _ _ _ _ (by simp only [condition_parseForwardingRule]; decide) (by simp only [condition_parseForwardingRule]; decide) (by simp only [condition_parseForwardingRule]; decide)]
          rfl
        rw [hpay, dlookup_dictSet_ne _ _ _ _ (by decide),
          dlookup_dictSet_ne _ _ _ _ (by decide),
          show List.foldl (payloadStep rset) (dictSet (dictSet [] keyDosubmit ("1".toList)) keyToken token)
          [parseForwardingRule p ridAlle, parseForwardingRule p ridNann,
           parseForwardingRule p ridWtel, parseForwardingRule p ridNerr] =
        List.foldl (payloadStep rset)
          (payloadStep rset (payloadStep rset (dictSet (dictSet [] keyDosubmit ("1".toList)) keyToken token) (parseForwardingRule p ridAlle)) (parseForwardingRule p ridNann))
          [parseForwardingRule p ridWtel, parseForwardingRule p ridNerr] from rfl,
          dlookup_fold_ne _ _ _ _ (by intro r2 hr2; simp only [List.mem_cons, List.not_mem_nil, or_false] at hr2; rcases hr2 with rfl | rfl <;> exact ⟨(by simp only [condition_parseForwardingRule]; decide), (by simp only [condition_parseForwardingRule]; decide), (by simp only [condition_parseForwardingRule]; decide)⟩),
          dlookup_payloadStep_sek _ _ _ rfl, if_pos heq, hfbsek, delayMap_match _ rfl]
    · intro hne
      refine ⟨?_, ?_, fun hc => by
        rw [condition_parseForwardingRule] at hc
        exact absurd hc (by decide)⟩
      · rw [hpay, dlookup_dictSet_ne _ _ _ _ (by simp only [condition_parseForwardingRule]; decide),
          dlookup_dictSet_ne _ _ _ _ (by simp only [condition_parseForwardingRule]; decide),
          show List.foldl (payloadStep rset) (dictSet (dictSet [] keyDosubmit ("1".toList)) keyToken token)
          [parseForwardingRule p ridAlle, parseForwardingRule p ridNann,
           parseForwardingRule p ridWtel, parseForwardingRule p ridNerr] =
        List.foldl (payloadStep rset)
          (payloadStep rset (payloadStep rset (payloadStep rset (dictSet (dictSet [] keyDosubmit ("1".toList)) keyToken token) (parseForwardingRule p ridAlle)) (parseForwardingRule p ridNann)) (parseForwardingRule p ridWtel))
          [parseForwardingRule p ridNerr] from rfl,
          dlookup_fold_ne _ _ _ _ (by intro r2 hr2; simp only [List.mem_cons, List.not_mem_nil, or_false] at hr2; subst hr2; exact ⟨(by simp only [condition_parseForwardingRule]; decide), (by simp only [condition_parseForwardingRule]; decide), (by simp only [condition_parseForwardingRule]; decide)⟩),
          dlookup_payloadStep_akt, if_neg hne]
      · have hfbrn : dlookup (keyRn (parseForwardingRule p ridWtel).condition) (payloadStep rset (payloadStep rset (dictSet (dictSet [] keyDosubmit ("1".toList)) keyToken token) (parseForwardingRule p ridAlle)) (parseForwardingRule p ridNann)) = none := by
          rw [dlookup_payloadStep_ne _ _ _ _ (by simp only [condition_parseForwardingRule]; decide) (by simp only [condition_parseForwardingRule]; decide) (by simp only [condition_parseForwardingRule]; decide),
            dlookup_payloadStep_ne _ _ _ _ (by simp only [condition_parseForwardingRule]; decide) (by simp only [condition_parseForwardingRule]; decide) (by simp only [condition_parseForwardingRule]; decide)]
          rfl
        rw [hpay, dlookup_dictSet_ne _ _ _ _ (by simp only [condition_parseForwardingRule]; decide),
          dlookup_dictSet_ne _ _ _ _ (by simp only [condition_parseForwardingRule]; decide),
          show List.foldl (payloadStep rset) (dictSet (dictSet [] keyDosubmit ("1".toList)) keyToken token)
          [parseForwardingRule p ridAlle, parseForwardingRule p ridNann,
           parseForwardingRule p ridWtel, parseForwardingRule p ridNerr] =
        List.foldl (payloadStep rset)
          (payloadStep rset (payloadStep rset (payloadStep rset (dictSet (dictSet [] keyDosubmit ("1".toList)) keyToken token) (parseForwardingRule p ridAlle)) (parseForwardingRule p ridNann)) (parseForwardingRule p ridWtel))
          [parseForwardingRule p ridNerr] from rfl,
          dlookup_fold_ne _ _ _ _ (by intro r2 hr2; simp only [List.mem_cons, List.not_mem_nil, or_false] at hr2; subst hr2; exact ⟨(by simp only [condition_parseForwardingRule]; decide), (by simp only [condition_parseForwardingRule]; decide), (by simp only [condition_parseForwardingRule]; decide)⟩),
          dlookup_payloadStep_rn, if_neg hne, hfbrn, rnEmit_match _ rfl]
    · intro heq
      refine ⟨?_, ?_, fun hc => by
        rw [condition_parseForwardingRule] at hc
        exact absurd hc (by decide)⟩
      · rw [hpay, dlookup_dictSet_ne _ _ _ _ (by simp only [condition_parseForwardingRule]; decide),
          dlookup_dictSet_ne _ _ _ _ (by simp only [condition_parseForwardingRule]; decide),
          show List.foldl (payloadStep rset) (dictSet (dictSet [] keyDosubmit ("1".toList)) keyToken token)
          [parseForwardingRule p ridAlle, parseForwardingRule p ridNann,
           parseForwardingRule p ridWtel, parseForwardingRule p ridNerr] =
        List.foldl (payloadStep rset)
          (payloadStep rset (payloadStep rset (payloadStep rset (dictSet (dictSet [] keyDosubmit ("1".toList)) keyToken token) (parseForwardingRule p ridAlle)) (parseForwardingRule p ridNann)) (parseForwardingRule p ridWtel))
          [parseForwardingRule p ridNerr] from rfl,
          dlookup_fold_ne _ _ _ _ (by intro r2 hr2; simp only [List.mem_cons, List.not_mem_nil, or_false] at hr2; subst hr2; exact ⟨(by simp only [condition_parseForwardingRule]; decide), (by simp only [condition_parseForwardingRule]; decide), (by simp only [condition_parseForwardingRule]; decide)⟩),
          dlookup_payloadStep_akt, if_pos heq]
      · have hfbrn : dlookup (keyRn (parseForwardingRule p ridWtel).condition) (payloadStep rset (payloadStep rset (dictSet (dictSet [] keyDosubmit ("1".toList)) keyToken token) (parseForwardingRule p ridAlle)) (parseForwardingRule p ridNann)) = none := by
          rw [dlookup_payloadStep_ne _ _ _ _ (by simp only [condition_parseForwardingRule]; decide) (by simp only [condition_parseForwardingRule]; decide) (by simp only [condition_parseForwardingRule]; decide),
            dlookup_payloadStep_ne _ _ _ _ (by simp only [condition_parseForwardingRule]; decide) (by simp only [condition_parseForwardingRule]; decide) (by simp only [condition_parseForwardingRule]; decide)]
          rfl
        rw [hpay, dlookup_dictSet_ne _ _ _ _ (by simp only [condition_parseForwardingRule]; decide),
          dlookup_dictSet_ne _ _ _ _ (by simp only [condition_parseForwardingRule]; decide),
          show List.foldl (payloadStep rset) (dictSet (dictSet [] keyDosubmit ("1".toList)) keyToken token)
          [parseForwardingRule p ridAlle, parseForwardingRule p ridNann,
           parseForwardingRule p ridWtel, parseForwardingRule p ridNerr] =
        List.foldl (payloadStep rset)
          (payloadStep rset (payloadStep rset (payloadStep rset (dictSet (dictSet [] keyDosubmit ("1".toList)) keyToken token) (parseForwardingRule p ridAlle)) (parseForwardingRule p ridNann)) (parseForwardingRule p ridWtel))
          [parseForwardingRule p ridNerr] from rfl,
          dlookup_fold_ne _ _ _ _ (by intro r2 hr2; simp only [List.mem_cons, List.not_mem_nil, or_false] at hr2; subst hr2; exact ⟨(by simp only [condition_parseForwardingRule]; decide), (by simp only [condition_parseForwardingRule]; decide), (by simp only [condition_parseForwardingRule]; decide)⟩),
          dlookup_payloadStep_rn, if_pos heq, hfbrn, rnEmit_match _ rfl]
    · intro hne
      refine ⟨?_, ?_, fun hc => by
        rw [condition_parseForwardingRule] at hc
        exact absurd hc (by decide)⟩
      · rw [hpay, dlookup_dictSet_ne _ _ _ _ (by simp only [condition_parseForwardingRule]; decide),
          dlookup_dictSet_ne _ _ _ _ (by simp only [condition_parseForwardingRule]; decide),
          show List.foldl (payloadStep rset) (dictSet (dictSet [] keyDosubmit ("1".toList)) keyToken token)
          [parseForwardingRule p ridAlle, parseForwardingRule p ridNann,
           parseForwardingRule p ridWtel, parseForwardingRule p ridNerr] =
        List.foldl (payloadStep rset)
          (payloadStep rset (payloadStep rset (payloadStep rset (payloadStep rset (dictSet (dictSet [] keyDosubmit ("1".toList)) keyToken token) (parseForwardingRule p ridAlle)) (parseForwardingRule p ridNann)) (parseForwardingRule p ridWtel)) (parseForwardingRule p ridNerr))
          [] from rfl,
          dlookup_fold_ne _ _ _ _ (by intro r2 hr2; exact absurd hr2 (List.not_mem_nil r2)),
          dlookup_payloadStep_akt, if_neg hne]
      · have hfbrn : dlookup (keyRn (parseForwardingRule p ridNerr).condition) (payloadStep rset (payloadStep rset (payloadStep rset (dictSet (dictSet [] keyDosubmit ("1".toList)) keyToken token) (parseForwardingRule p ridAlle)) (parseForwardingRule p ridNann)) (parseForwardingRule p ridWtel)) = none := by
          rw [dlookup_payloadStep_ne _ _ _ _ (by simp only [condition_parseForwardingRule]; decide) (by simp only [condition_parseForwardingRule]; decide) (by simp only [condition_parseForwardingRule]; decide),
            dlookup_payloadStep_ne _ _ _ _ (by simp only [condition_parseForwardingRule]; decide) (by simp only [condition_parseForwardingRule]; decide) (by simp only [condition_parseForwardingRule]; decide),
            dlookup_payloadStep_ne _ _ _ _ (by simp only [condition_parseForwardingRule]; decide) (by simp only [condition_parseForwardingRule]; decide) (by simp only [condition_parseForwardingRule]; decide)]
          rfl
        rw [hpay, dlookup_dictSet_ne _ _ _ _ (by simp only [condition_parseForwardingRule]; decide),
          dlookup_dictSet_ne _ _ _ _ (by simp only [condition_parseForwardingRule]; decide),
          show List.foldl (payloadStep rset) (dictSet (dictSet [] keyDosubmit ("1".toList)) keyToken token)
          [parseForwardingRule p ridAlle, parseForwardingRule p ridNann,
           parseForwardingRule p ridWtel, parseForwardingRule p ridNerr] =
        List.foldl (payloadStep rset)
          (payloadStep rset (payloadStep rset (payloadStep rset (payloadStep rset (dictSet (dictSet [] keyDosubmit ("1".toList)) keyToken token) (parseForwardingRule p ridAlle)) (parseForwardingRule p ridNann)) (parseForwardingRule p ridWtel)) (parseForwardingRule p ridNerr))
          [] from rfl,
          dlookup_fold_ne _ _ _ _ (by intro r2 hr2; exact absurd hr2 (List.not_mem_nil r2)),
          dlookup_payloadStep_rn, if_neg hne, hfbrn, rnEmit_match _ rfl]
    · intro heq
      refine ⟨?_, ?_, fun hc => by
        rw [condition_parseForwardingRule] at hc
        exact absurd hc (by decide)⟩
      · rw [hpay, dlookup_dictSet_ne _ _ _ _ (by simp only [condition_parseForwardingRule]; decide),
          dlookup_dictSet_ne _ _ _ _ (by simp only [condition_parseForwardingRule]; decide),
          show List.foldl (payloadStep rset) (dictSet (dictSet [] keyDosubmit ("1".toList)) keyToken token)
          [parseForwardingRule p ridAlle, parseForwardingRule p ridNann,
           parseForwardingRule p ridWtel, parseForwardingRule p ridNerr] =
        List.foldl (payloadStep rset)
          (payloadStep rset (payloadStep rset (payloadStep rset (payloadStep rset (dictSet (dictSet [] keyDosubmit ("1".toList)) keyToken token) (parseForwardingRule p ridAlle)) (parseForwardingRule p ridNann)) (parseForwardingRule p ridWtel)) (parseForwardingRule p ridNerr))
          [] from rfl,
          dlookup_fold_ne _ _ _ _ (by intro r2 hr2; exact absurd hr2 (List.not_mem_nil r2)),
          dlookup_payloadStep_akt, if_pos heq]
      · have hfbrn : dlookup (keyRn (parseForwardingRule p ridNerr).condition) (payloadStep rset (payloadStep rset (payloadStep rset (dictSet (dictSet [] keyDosubmit ("1".toList)) keyToken token) (parseForwardingRule p ridAlle)) (parseForwardingRule p ridNann)) (parseForwardingRule p ridWtel)) = none := by
          rw [dlookup_payloadStep_ne _ _ _ _ (by simp only [condition_parseForwardingRule]; decide) (by simp only [condition_parseForwardingRule]; decide) (by simp only [condition_parseForwardingRule]; decide),
            dlookup_payloadStep_ne _ _ _ _ (by simp only [condition_parseForwardingRule]; decide) (by simp only [condition_parseForwardingRule]; decide) (by simp only [condition_parseForwardingRule]; decide),
            dlookup_payloadStep_ne _ _ _ _ (by simp only [condition_parseForwardingRule]; decide) (by simp only [condition_parseForwardingRule]; decide) (by simp only [condition_parseForwardingRule]; decide)]
          rfl
        rw [hpay, dlookup_dictSet_ne _ _ _ _ (by simp only [condition_parseForwardingRule]; decide),
          dlookup_dictSet_ne _ _ _ _ (by simp only [condition_parseForwardingRule]; decide),
          show List.foldl (payloadStep rset) (dictSet (dictSet [] keyDosubmit ("1".toList)) keyToken token)
          [parseForwardingRule p ridAlle, parseForwardingRule p ridNann,
           parseForwardingRule p ridWtel, parseForwardingRule p ridNerr] =
        List.foldl (payloadStep rset)
          (payloadStep rset (payloadStep rset (payloadStep rset (payloadStep rset (dictSet (dictSet [] keyDosubmit ("1".toList)) keyToken token) (parseForwardingRule p ridAlle)) (parseForwardingRule p ridNann)) (parseForwardingRule p ridWtel)) (parseForwardingRule p ridNerr))
          [] from rfl,
          dlookup_fold_ne _ _ _ _ (by intro r2 hr2; exact absurd hr2 (List.not_mem_nil r2)),
          dlookup_payloadStep_rn, if_pos heq, hfbrn, rnEmit_match _ rfl]
  · rw [hpay, dlookup_dictSet_ne _ _ _ _ (by decide), dlookup_dictSet_self]
  · rw [hpay, dlookup_dictSet_self]

/-- A concrete page on which every selector query comes back empty. -/
def fwPage0 : ForwardingPage :=
  ⟨fun _ => none, fun _ => none, fun _ => none, none, none, none, none⟩

/-- A concrete caller-supplied rule targeting the busy condition. -/
def fwRule0 : CallForwardingRule :=
  { condition := ridWtel, target := valA, target_number := some ("06601234567".toList) }

/-- C1 witness: the theorem applied at the concrete page, rule and token. -/
theorem c1_call_forwarding_frame_witness :
    (∀ r ∈ (getCallForwardingSettings fwPage0).rules,
      (r.condition ≠ fwRule0.condition →
        dlookup (keyAkt r.condition) (fwPayload fwPage0 fwRule0 ("tok".toList)) =
            some r.target ∧
          dlookup (keyRn r.condition) (fwPayload fwPage0 fwRule0 ("tok".toList)) =
            rnEmit r.target_number ∧
          (r.condition = ridNann →
            dlookup keyNannSek (fwPayload fwPage0 fwRule0 ("tok".toList)) =
              r.delay_seconds.map (fun ds => (toString ds).toList))) ∧
        (r.condition = fwRule0.condition →
          dlookup (keyAkt r.condition) (fwPayload fwPage0 fwRule0 ("tok".toList)) =
              some fwRule0.target ∧
            dlookup (keyRn r.condition) (fwPayload fwPage0 fwRule0 ("tok".toList)) =
              rnEmit fwRule0.target_number ∧
            (r.condition = ridNann →
              dlookup keyNannSek (fwPayload fwPage0 fwRule0 ("tok".toList)) =
                fwRule0.delay_seconds.map (fun ds => (toString ds).toList)))) ∧
      dlookup keyBtelAkt (fwPayload fwPage0 fwRule0 ("tok".toList)) =
        some (if (getCallForwardingSettings fwPage0).editable_on_phone then valA
          else valD) ∧
      dlookup keyVoicemail (fwPayload fwPage0 fwRule0 ("tok".toList)) =
        some (if (getCallForwardingSettings fwPage0).voicemail_play_cli_disable then valA
          else valD) :=
  c1_call_forwarding_frame fwPage0 fwRule0 ("tok".toList)

end KM